import Mathlib

/-!
Verification of the SemMedDB predication-cleaning pipeline (`parser.py`).

The pandas data frames of the source are embedded as Lean lists of records;
each cleaning step of `parser.py` becomes a pure function on such lists,
translated clause by clause from the source.  Python dictionaries built with
`dict(zip(ks, vs))` (later entries overwrite earlier ones) are embedded by an
explicit association-list construction (`dictOfZip` / `dictGet?`); pandas
`drop_duplicates(keep="first")` becomes `dedupByKey`; string sorting uses an
explicit code-point-lexicographic comparison (`charListLt`), matching the
byte-wise order pandas applies to the ASCII identifier strings involved.
-/

namespace Semmed

/-- Keep-first de-duplication by a key function, mirroring pandas
`drop_duplicates(subset=key, keep="first")`: the accumulator carries the keys
already seen, in frame order. -/
def dedupByKeyAux {α β : Type} [BEq β] (key : α → β) (seen : List β) : List α → List α
  | [] => []
  | x :: xs =>
    if seen.contains (key x) then dedupByKeyAux key seen xs
    else x :: dedupByKeyAux key (key x :: seen) xs

/-- `drop_duplicates(subset=key, keep="first")` on a list. -/
def dedupByKey {α β : Type} [BEq β] (key : α → β) (l : List α) : List α :=
  dedupByKeyAux key [] l

/-- `pandas.Series.unique()`: distinct values in order of first appearance. -/
def uniqueList {α : Type} [BEq α] (l : List α) : List α :=
  dedupByKey (fun x => x) l

/-- Insertion into an association list with overwrite semantics, as assigning
`d[k] = v` to a Python dict: if the key is present its value is replaced,
otherwise the pair is appended. -/
def dictInsert {κ ν : Type} [BEq κ] (m : List (κ × ν)) (k : κ) (v : ν) : List (κ × ν) :=
  if m.any (fun p => p.1 == k) then m.map (fun p => if p.1 == k then (k, v) else p)
  else m ++ [(k, v)]

/-- `dict(zip(ks, vs))` over a list of pairs: later pairs overwrite earlier
ones, exactly as repeated Python dict assignment. -/
def dictOfZip {κ ν : Type} [BEq κ] (pairs : List (κ × ν)) : List (κ × ν) :=
  pairs.foldl (fun m p => dictInsert m p.1 p.2) []

/-- `d.get(k)` on an association list built by `dictInsert`. -/
def dictGet? {κ ν : Type} [BEq κ] (m : List (κ × ν)) (k : κ) : Option ν :=
  (m.find? (fun p => p.1 == k)).map (fun p => p.2)

/-- Lookup in a Python dict described extensionally by its insertion sequence:
the value of the last pair carrying the key. -/
def lastLookup {κ ν : Type} [BEq κ] (tbl : List (κ × ν)) (k : κ) : Option ν :=
  ((tbl.filter (fun p => p.1 == k)).getLast?).map (fun p => p.2)

/-- Code-point lexicographic comparison of character lists; this is the order
pandas uses when sorting the (ASCII) identifier strings of the data set. -/
def charListLt : List Char → List Char → Bool
  | [], [] => false
  | [], _ :: _ => true
  | _ :: _, [] => false
  | a :: as, b :: bs =>
    if a.toNat < b.toNat then true
    else if b.toNat < a.toNat then false
    else charListLt as bs

/-- Strict lexicographic order on strings via their character lists. -/
def strLt (a b : String) : Bool := charListLt a.data b.data

/-- `biothings.utils.common.iter_n`: partition a list into consecutive chunks
of `n` elements (the last chunk may be shorter).  `acc` is the current chunk
reversed, `r` the remaining capacity of the current chunk. -/
def iter_n_aux {α : Type} (n : Nat) : List α → List α → Nat → List (List α)
  | [], acc, _ => if acc.isEmpty then [] else [acc.reverse]
  | x :: xs, acc, r =>
    if r == 0 then acc.reverse :: iter_n_aux n xs [x] (n - 1)
    else iter_n_aux n xs (x :: acc) (r - 1)

/-- Chunking used for the Node Normalizer requests. -/
def iter_n {α : Type} (l : List α) (n : Nat) : List (List α) :=
  match l with
  | [] => []
  | x :: xs => iter_n_aux n xs [x] (n - 1)

/-!
## Data model

One row of the (cleaned) `PREDICATION` data frame.  The two `*Piped` booleans
are the `IS_SUBJECT_PIPED` / `IS_OBJECT_PIPED` columns added by
`explode_pipes`; the `*PrefixCol` strings are the `SUBJECT_PREFIX` /
`OBJECT_PREFIX` columns added by `add_prefix_columns`; `docId` is the `_ID`
column added by `add_document_id_column`.  Raw rows enter with the defaults.
-/

structure Predication where
  predicationId : Nat
  sentenceId : Nat
  pmid : Nat
  predicate : String
  subjectCui : String
  subjectName : String
  subjectSemtype : String
  subjectNovelty : Int
  objectCui : String
  objectName : String
  objectSemtype : String
  objectNovelty : Int
  isSubjectPiped : Bool := false
  isObjectPiped : Bool := false
  subjectPrefixCol : String := ""
  objectPrefixCol : String := ""
  docId : String := ""
  deriving DecidableEq, Repr, Inhabited

/-- One row of `MRCUI.RRF` as read by `read_mrcui_data_frame`: retired CUI,
the `REL` code, and the (possibly absent) replacement CUI. -/
structure MrcuiRow where
  cui1 : String
  rel : String
  cui2 : Option String
  deriving DecidableEq, Repr

/-- One row of a CUI name / semantic-type table (either extracted from the
SemMedDB frame itself or read from `UMLS_CUI_Semtype.tsv`). -/
structure CuiInfo where
  cui : String
  conceptName : String
  semtype : String
  deriving DecidableEq, Repr

/-- One row of the enriched retirement mapping produced by
`add_cui_name_and_semtype_to_retirement_mapping`: `info` holds the matched
(`CUI2_NAME`, `CUI2_SEMTYPE`) pair, or `none` when the left join found no
name for the replacement CUI. -/
structure RetireRow where
  cui1 : String
  cui2 : String
  info : Option (String × String)
  deriving DecidableEq, Repr

/-! String literals of the source, named so they can be reused verbatim. -/

def pipeChar : Char := '|'

def noneLit : String := "None"

def umlsLit : String := "umls"

def ncbigeneLit : String := "ncbigene"

def dashLit : String := "-"

def delLit : String := "DEL"

def emptyLit : String := ""

/-!
## Record Filter
-/

/-- `delete_zero_novelty_scores`: drop every row whose subject or object
novelty equals 0. -/
def delete_zero_novelty_scores (df : List Predication) : List Predication :=
  df.filter (fun r => !(r.subjectNovelty == 0 || r.objectNovelty == 0))

/-- The character class of the regex `^[C0-9|]+$` used by
`delete_invalid_object_cuis`. -/
def isCuiChar (c : Char) : Bool :=
  c == 'C' || (('0'.toNat ≤ c.toNat) && (c.toNat ≤ '9'.toNat)) || c == pipeChar

/-- Full match of `^[C0-9|]+$`: a non-empty string of class characters. -/
def isValidObjectCui (s : String) : Bool :=
  !s.data.isEmpty && s.data.all isCuiChar

/-- `delete_invalid_object_cuis`: drop rows whose `OBJECT_CUI` fails the
character-class check. -/
def delete_invalid_object_cuis (df : List Predication) : List Predication :=
  df.filter (fun r => isValidObjectCui r.objectCui)

/-!
## Multi-Value Expander (`explode_pipes`)
-/

/-- One step of `str.split(r"\|")`: split a character list at every pipe,
keeping empty pieces (so a trailing `||` yields an empty token). -/
def splitOnPipeAux : List Char → List Char → List (List Char)
  | [], acc => [acc.reverse]
  | c :: cs, acc =>
    if c == pipeChar then acc.reverse :: splitOnPipeAux cs []
    else splitOnPipeAux cs (c :: acc)

/-- `pandas.Series.str.split(r"\|")` on one cell. -/
def splitPipes (s : String) : List String :=
  (splitOnPipeAux s.data []).map (fun l => String.mk l)

/-- `pandas.Series.str.contains(r"\|")` on one cell. -/
def containsPipe (s : String) : Bool :=
  s.data.any (fun c => c == pipeChar)

/-- The two `explode` operations of `explode_pipes` applied to one piped row:
first the object columns are exploded, then the subject columns, so the
resulting order is object-outer, subject-inner.  The CUI and name lists of one
side are paired elementwise, as pandas pairs the columns of a multi-column
`explode` (which requires equal cardinality and raises otherwise; the
embedding is used on rows whose name list matches its CUI list). -/
def explodeRow (r : Predication) : List Predication :=
  ((splitPipes r.objectCui).zip (splitPipes r.objectName)).flatMap (fun oc =>
    ((splitPipes r.subjectCui).zip (splitPipes r.subjectName)).map (fun sc =>
      { r with
        subjectCui := sc.1, subjectName := sc.2,
        objectCui := oc.1, objectName := oc.2 }))

/-- `explode_pipes`: tag every row with the `IS_SUBJECT_PIPED` /
`IS_OBJECT_PIPED` flags, keep the non-piped rows as they are, explode the
piped rows, drop exploded rows with an empty CUI token or a literal `"None"`
name token, and append the surviving exploded rows after the non-piped ones
(the order produced by the source's `pd.concat`). -/
def explode_pipes (df : List Predication) : List Predication :=
  let tagged := df.map (fun r =>
    { r with
      isSubjectPiped := containsPipe r.subjectCui,
      isObjectPiped := containsPipe r.objectCui })
  let nonPiped := tagged.filter (fun r => !(r.isSubjectPiped || r.isObjectPiped))
  let piped := tagged.filter (fun r => r.isSubjectPiped || r.isObjectPiped)
  let cleaned := (piped.flatMap explodeRow).filter (fun r =>
    !(r.subjectCui == emptyLit || r.subjectName == noneLit ||
      r.objectCui == emptyLit || r.objectName == noneLit))
  nonPiped ++ cleaned

/-!
## Retired CUIs
-/

/-- `get_retired_cuis_for_deletion`: the `CUI1` values of rows whose `REL` is
`"DEL"` (as a list standing for the Python set; only membership is used). -/
def get_retired_cuis_for_deletion (mrcui : List MrcuiRow) : List String :=
  (mrcui.filter (fun m => m.rel == delLit)).map (fun m => m.cui1)

/-- `get_retirement_mapping_data_frame`: the `(CUI1, CUI2)` pairs of rows
whose `CUI2` is not null. -/
def get_retirement_mapping_data_frame (mrcui : List MrcuiRow) : List (String × String) :=
  mrcui.filterMap (fun m => m.cui2.map (fun c2 => (m.cui1, c2)))

/-- `delete_retired_cuis`: drop rows whose subject or object CUI is in the
deletion set. -/
def delete_retired_cuis (df : List Predication) (retired : List String) : List Predication :=
  df.filter (fun r => !(retired.contains r.objectCui || retired.contains r.subjectCui))

/-- `startswith("C")` on the identifier strings. -/
def startsWithC (s : String) : Bool :=
  match s.data with
  | [] => false
  | c :: _ => c == 'C'

/-- `add_prefix_columns`: `"umls"` for identifiers starting with `C`,
`"ncbigene"` otherwise. -/
def add_prefix_columns (df : List Predication) : List Predication :=
  df.map (fun r =>
    { r with
      subjectPrefixCol := if startsWithC r.subjectCui then umlsLit else ncbigeneLit,
      objectPrefixCol := if startsWithC r.objectCui then umlsLit else ncbigeneLit })

/-- `get_cui_name_and_semtype_from_semmed`: collect `(CUI, name, semtype)`
rows for `umls`-prefixed subjects, then objects, de-duplicating each part and
the concatenation by `(CUI, SEMTYPE)` keeping the first occurrence. -/
def get_cui_name_and_semtype_from_semmed (df : List Predication) : List CuiInfo :=
  let subRows := (df.filter (fun r => r.subjectPrefixCol == umlsLit)).map
    (fun r => CuiInfo.mk r.subjectCui r.subjectName r.subjectSemtype)
  let objRows := (df.filter (fun r => r.objectPrefixCol == umlsLit)).map
    (fun r => CuiInfo.mk r.objectCui r.objectName r.objectSemtype)
  let subDedup := dedupByKey (fun i => (i.cui, i.semtype)) subRows
  let objDedup := dedupByKey (fun i => (i.cui, i.semtype)) objRows
  dedupByKey (fun i => (i.cui, i.semtype)) (subDedup ++ objDedup)

/-- The `preferred_cui_info` table of
`add_cui_name_and_semtype_to_retirement_mapping`: both name tables restricted
to replacement CUIs, the SemMedDB-sourced rows ahead of the UMLS-sourced
ones, de-duplicated by `(CUI, SEMTYPE)` keeping the first (hence
SemMedDB-preferred) row. -/
def preferredCuiInfo (mapping : List (String × String))
    (semmedTbl umlsTbl : List CuiInfo) : List CuiInfo :=
  let newCuis := mapping.map (fun p => p.2)
  let semmedInfo := semmedTbl.filter (fun i => newCuis.contains i.cui)
  let umlsInfo := umlsTbl.filter (fun i => newCuis.contains i.cui)
  dedupByKey (fun i => (i.cui, i.semtype)) (semmedInfo ++ umlsInfo)

/-- `add_cui_name_and_semtype_to_retirement_mapping`: left-join the mapping
on `CUI2 = CUI` against the preferred name table; a mapping pair with no
matching name row yields a single row with `info = none`. -/
def add_cui_name_and_semtype_to_retirement_mapping
    (mapping : List (String × String)) (semmedTbl umlsTbl : List CuiInfo) : List RetireRow :=
  mapping.flatMap (fun p =>
    let hits := (preferredCuiInfo mapping semmedTbl umlsTbl).filter (fun i => i.cui == p.2)
    if hits.isEmpty then [RetireRow.mk p.1 p.2 none]
    else hits.map (fun i => RetireRow.mk p.1 p.2 (some (i.conceptName, i.semtype))))

/-!
## Retirement Resolver (`map_retired_cuis`)
-/

/-- The retired CUIs of the enriched mapping (its `CUI1` column). -/
def retirementKeys (M : List RetireRow) : List String :=
  M.map (fun m => m.cui1)

/-- The `IS_SUBJECT_RETIRED` flag. -/
def isSubjectRetired (M : List RetireRow) (r : Predication) : Bool :=
  (retirementKeys M).contains r.subjectCui

/-- The `IS_OBJECT_RETIRED` flag. -/
def isObjectRetired (M : List RetireRow) (r : Predication) : Bool :=
  (retirementKeys M).contains r.objectCui

/-- Step 2 of `map_retired_cuis` on one record: the left join on
`(SUBJECT_CUI, SUBJECT_SEMTYPE) = (CUI1, CUI2_SEMTYPE)` followed by the
`np.where` overwrite and the `dropna`.  A record whose subject is not retired
passes through unchanged (the join cannot match, and the overwrite keeps the
original values); a retired subject yields one record per matching mapping
row, and none at all — the `dropna` deletion — when no row matches. -/
def resolveSubject (M : List RetireRow) (r : Predication) : List Predication :=
  if isSubjectRetired M r then
    M.filterMap (fun m =>
      match m.info with
      | some nv =>
        if m.cui1 == r.subjectCui && nv.2 == r.subjectSemtype then
          some { r with subjectCui := m.cui2, subjectName := nv.1, subjectSemtype := nv.2 }
        else none
      | none => none)
  else [r]

/-- Step 3 of `map_retired_cuis` on one record: the object-side analogue of
`resolveSubject`. -/
def resolveObject (M : List RetireRow) (r : Predication) : List Predication :=
  if isObjectRetired M r then
    M.filterMap (fun m =>
      match m.info with
      | some nv =>
        if m.cui1 == r.objectCui && nv.2 == r.objectSemtype then
          some { r with objectCui := m.cui2, objectName := nv.1, objectSemtype := nv.2 }
        else none
      | none => none)
  else [r]

/-- `map_retired_cuis`: records with a retired subject or object are replaced
by their subject-then-object resolutions and appended after the untouched
records, mirroring the source's drop-and-concat.  (The source's final
`sort_values` call discards its result and is a no-op.) -/
def map_retired_cuis (df : List Predication) (M : List RetireRow) : List Predication :=
  let kept := df.filter (fun r => !(isSubjectRetired M r || isObjectRetired M r))
  let resolved := (df.filter (fun r => isSubjectRetired M r || isObjectRetired M r)).flatMap
    (fun r => (resolveSubject M r).flatMap (resolveObject M))
  kept ++ resolved

/-!
## Equivalence Collapser (`delete_equivalent_ncbigene_ids`)

The Node Normalizer response is a map from CUI to equivalent NCBIGene id; it
enters the pure collapsing step as the function `oracle`.  The inner helpers
of `delete_equivalent_ncbigene_ids` are lifted to top-level definitions.
-/

/-- `candidate_sub_cui_flags`: subject came from a piped field and is
`umls`-prefixed. -/
def deqCandSub (r : Predication) : Bool :=
  r.isSubjectPiped && r.subjectPrefixCol == umlsLit

/-- `candidate_obj_cui_flags`. -/
def deqCandObj (r : Predication) : Bool :=
  r.isObjectPiped && r.objectPrefixCol == umlsLit

/-- `sub_cui_gene_id_map`: the oracle result restricted to the candidate
subject CUIs actually present in the frame. -/
def deqSubMap (df : List Predication) (oracle : String → Option String)
    (c : String) : Option String :=
  if ((df.filter deqCandSub).map (fun r => r.subjectCui)).contains c then oracle c else none

/-- `obj_cui_gene_id_map`. -/
def deqObjMap (df : List Predication) (oracle : String → Option String)
    (c : String) : Option String :=
  if ((df.filter deqCandObj).map (fun r => r.objectCui)).contains c then oracle c else none

/-- `source_sub_cui_flags`: piped subject whose CUI is a key of the restricted
oracle map. -/
def deqSrcSub (df : List Predication) (oracle : String → Option String)
    (r : Predication) : Bool :=
  r.isSubjectPiped && (deqSubMap df oracle r.subjectCui).isSome

/-- `source_obj_cui_flags`. -/
def deqSrcObj (df : List Predication) (oracle : String → Option String)
    (r : Predication) : Bool :=
  r.isObjectPiped && (deqObjMap df oracle r.objectCui).isSome

/-- The `(PREDICATION_ID, SUBJECT_CUI)` pairs zipped into
`pred_id_sub_cui_map`, in frame order. -/
def deqPidSubCuiPairs (df : List Predication) (oracle : String → Option String) :
    List (Nat × String) :=
  (df.filter (deqSrcSub df oracle)).map (fun r => (r.predicationId, r.subjectCui))

/-- The `(PREDICATION_ID, OBJECT_CUI)` pairs zipped into
`pred_id_obj_cui_map`. -/
def deqPidObjCuiPairs (df : List Predication) (oracle : String → Option String) :
    List (Nat × String) :=
  (df.filter (deqSrcObj df oracle)).map (fun r => (r.predicationId, r.objectCui))

/-- `pred_id_sub_cui_map = dict(zip(...))`: keyed by predication id alone,
later rows overwriting earlier ones. -/
def deqPidSubCuiMap (df : List Predication) (oracle : String → Option String)
    (pid : Nat) : Option String :=
  dictGet? (dictOfZip (deqPidSubCuiPairs df oracle)) pid

/-- `pred_id_obj_cui_map`. -/
def deqPidObjCuiMap (df : List Predication) (oracle : String → Option String)
    (pid : Nat) : Option String :=
  dictGet? (dictOfZip (deqPidObjCuiPairs df oracle)) pid

/-- `establish_pred_id_to_gene_id_map` for the subject side: the equivalent
gene id of the predication's retained subject CUI. -/
def deqPidSubGidMap (df : List Predication) (oracle : String → Option String)
    (pid : Nat) : Option String :=
  (deqPidSubCuiMap df oracle pid).bind (deqSubMap df oracle)

/-- The object-side pid-to-gene-id map. -/
def deqPidObjGidMap (df : List Predication) (oracle : String → Option String)
    (pid : Nat) : Option String :=
  (deqPidObjCuiMap df oracle pid).bind (deqObjMap df oracle)

/-- Membership in `dest_sub_gid_index`: a subject-piped row whose
`SUBJECT_CUI` equals the gene id recorded for its predication id (the inner
merge of `get_row_index_of_equivalent_ncbigene_ids`). -/
def deqDropSub (df : List Predication) (oracle : String → Option String)
    (r : Predication) : Bool :=
  r.isSubjectPiped && (deqPidSubGidMap df oracle r.predicationId == some r.subjectCui)

/-- Membership in `dest_obj_gid_index`. -/
def deqDropObj (df : List Predication) (oracle : String → Option String)
    (r : Predication) : Bool :=
  r.isObjectPiped && (deqPidObjGidMap df oracle r.predicationId == some r.objectCui)

/-- `delete_equivalent_ncbigene_ids`: drop the union of the two destination
index sets.  (The source also drops the two `IS_*_PIPED` columns afterwards to
save memory; the embedding keeps the fields, which no later step reads.) -/
def delete_equivalent_ncbigene_ids (df : List Predication)
    (oracle : String → Option String) : List Predication :=
  df.filter (fun r => !(deqDropSub df oracle r || deqDropObj df oracle r))

/-!
## Node Normalizer client (`query_node_normalizer_for_equivalent_ncbigene_ids`)

One batch request is the function `q`; `Except.error` stands for a raised
`requests` exception or a non-2xx status surfaced by `raise_for_status`.  The
list comprehension `[_query(chunk) for chunk in iter_n(...)]` evaluates the
chunks in order and lets the first exception abort the whole call; on success
the per-chunk maps are merged into one dict, later entries overwriting
earlier ones (`lastLookup` reads the concatenation accordingly).
-/

def runChunks (q : List String → Except String (List (String × String))) :
    List (List String) → Except String (List (String × String))
  | [] => Except.ok []
  | c :: cs =>
    match q c with
    | Except.error e => Except.error e
    | Except.ok m =>
      match runChunks q cs with
      | Except.error e => Except.error e
      | Except.ok rest => Except.ok (m ++ rest)

/-- The full client: chunk the CUIs, run every batch, merge. -/
def query_node_normalizer_for_equivalent_ncbigene_ids
    (q : List String → Except String (List (String × String)))
    (cuis : List String) (chunkSize : Nat) : Except String (List (String × String)) :=
  runChunks q (iter_n cuis chunkSize)

/-- `sub_cuis.union(obj_cuis)` of `get_cui_to_gene_id_maps`: the distinct
candidate CUIs of both sides (a Python set; the embedding fixes the
subjects-then-objects enumeration order, which no claim depends on). -/
def nodeNormCandidateCuis (df : List Predication) : List String :=
  uniqueList (((df.filter deqCandSub).map (fun r => r.subjectCui)) ++
    ((df.filter deqCandObj).map (fun r => r.objectCui)))

/-- `delete_equivalent_ncbigene_ids` including its oracle call: a failed
batch propagates as a failure of the whole step, and no record is dropped; on
success the merged map drives the pure collapsing step. -/
def delete_equivalent_ncbigene_ids_checked (df : List Predication)
    (q : List String → Except String (List (String × String)))
    (chunkSize : Nat) : Except String (List Predication) :=
  match query_node_normalizer_for_equivalent_ncbigene_ids q (nodeNormCandidateCuis df) chunkSize with
  | Except.error e => Except.error e
  | Except.ok m => Except.ok (delete_equivalent_ncbigene_ids df (fun c => lastLookup m c))

/-!
## Document ids (`add_document_id_column`)
-/

/-- The sort key of `add_document_id_column`: `PREDICATION_ID` ascending,
then `SUBJECT_CUI` and `OBJECT_CUI` descending (so a true CUI precedes an
NCBIGene id inside a predication group). -/
def docLeB (a b : Predication) : Bool :=
  if a.predicationId < b.predicationId then true
  else if b.predicationId < a.predicationId then false
  else if strLt b.subjectCui a.subjectCui then true
  else if strLt a.subjectCui b.subjectCui then false
  else if strLt b.objectCui a.objectCui then true
  else if strLt a.objectCui b.objectCui then false
  else true

/-- `docLeB` as a relation, for `List.insertionSort`. -/
def docOrder (a b : Predication) : Prop := docLeB a b = true

instance : DecidableRel docOrder := fun a b => by
  unfold docOrder; infer_instance

/-- Assign the `_ID` column: `num` is the groupwise `cumcount() + 1` (the
number of earlier rows of the same predication id, `seen` being the already
numbered part of the frame), and the id is the bare predication id for a
group of size 1 and `pid-num` otherwise. -/
def assignDocIdsAux (full : List Predication) (seen : List Predication) :
    List Predication → List Predication
  | [] => []
  | r :: rest =>
    let num := (seen.filter (fun x => x.predicationId == r.predicationId)).length + 1
    let gsize := (full.filter (fun x => x.predicationId == r.predicationId)).length
    let newId :=
      if gsize == 1 then toString r.predicationId
      else toString r.predicationId ++ dashLit ++ toString num
    { r with docId := newId } :: assignDocIdsAux full (seen ++ [r]) rest

/-- `add_document_id_column`: sort, then assign `_ID` values.  (pandas'
default quicksort is not stable; the embedding uses a stable sort, which
agrees with it on every frame whose rows have distinct sort keys and fixes an
order within ties that pandas leaves unspecified.) -/
def add_document_id_column (df : List Predication) : List Predication :=
  let sorted := List.insertionSort docOrder df
  assignDocIdsAux sorted [] sorted

/-!
## The cleaning pipeline (`construct_semmed_predication_data_frame`)

File reading and the on-disk caches are external; the pipeline receives the
raw predication rows, the `MRCUI.RRF` rows, the UMLS name table and the
(already fetched) oracle map.
-/

def construct_semmed_predication_data_frame (rows : List Predication)
    (mrcui : List MrcuiRow) (umlsTbl : List CuiInfo)
    (oracle : String → Option String) : List Predication :=
  let df1 := delete_zero_novelty_scores rows
  let df2 := delete_invalid_object_cuis df1
  let df3 := explode_pipes df2
  let df4 := delete_retired_cuis df3 (get_retired_cuis_for_deletion mrcui)
  let df5 := add_prefix_columns df4
  let semmedTbl := get_cui_name_and_semtype_from_semmed df5
  let mapping := get_retirement_mapping_data_frame mrcui
  let enriched := add_cui_name_and_semtype_to_retirement_mapping mapping semmedTbl umlsTbl
  let df6 := map_retired_cuis df5 enriched
  let df7 := delete_equivalent_ncbigene_ids df6 oracle
  add_document_id_column df7

/-!
## Parser (`construct_entity`, `construct_document`, `generate_documents`)

The emitted documents are Python dicts; the embedding types their shapes.  A
value that `squeeze_list` / `squeeze_series` may leave as a scalar or a list
becomes a tagged union, and the `semantic_type_name` entry — deleted from the
dict when its value is falsy — becomes an `Option`, `none` meaning the key is
absent. -/

/-- `squeeze_series` output: a scalar for a singleton, else a list. -/
inductive StrOrList where
  | str (s : String)
  | lst (l : List String)
  deriving DecidableEq, Repr, Inhabited

/-- The `semantic_type_name` value before the deletion check: a scalar
(possibly `None`) from the one-row branch or a squeezed singleton, else the
list of per-abbreviation lookups (entries are `None` for abbreviations with
no mapping). -/
inductive SemtypeNameVal where
  | scalar (v : Option String)
  | lst (l : List (Option String))
  deriving DecidableEq, Repr, Inhabited

/-- Python truthiness of a `semantic_type_name` value: `None` and the empty
string are falsy, and a list is truthy exactly when non-empty — even when all
its entries are `None`. -/
def semtypeNameTruthy : SemtypeNameVal → Bool
  | SemtypeNameVal.scalar none => false
  | SemtypeNameVal.scalar (some s) => !s.data.isEmpty
  | SemtypeNameVal.lst l => !l.isEmpty

/-- `squeeze_list` on the semantic-type-name lookups. -/
def squeeze_list (l : List (Option String)) : SemtypeNameVal :=
  if l.length == 1 then SemtypeNameVal.scalar l.headI else SemtypeNameVal.lst l

/-- `squeeze_series` on an (already uniqued) string column. -/
def squeeze_series (l : List String) : StrOrList :=
  if l.length == 1 then StrOrList.str l.headI else StrOrList.lst l

/-- One element of the `predication` evidence list
(`construct_predication`). -/
structure PredicationEntry where
  predication_id : Nat
  pmid : Nat
  sentence_id : Nat
  sentence : Option String
  deriving DecidableEq, Repr, Inhabited

/-- The `subject` / `object` dict of an emitted document.  `keyName` is the
dict key carrying the identifier (`"umls"` or `"ncbigene"` — the
`cui_prefix` argument of `construct_entity`), and `semtypeName` is `none`
when the `semantic_type_name` entry has been deleted. -/
structure EntityDoc where
  keyName : String
  keyValue : String
  name : StrOrList
  semtypeAbbrev : StrOrList
  semtypeName : Option SemtypeNameVal
  novelty : Int
  deriving DecidableEq, Repr, Inhabited

/-- `construct_entity`. -/
def construct_entity (cui : String) (name : StrOrList) (semtype : StrOrList)
    (semtypeName : SemtypeNameVal) (novelty : Int) (cuiKey : String) : EntityDoc :=
  { keyName := cuiKey, keyValue := cui, name := name, semtypeAbbrev := semtype,
    semtypeName := some semtypeName, novelty := novelty }

/-- An emitted document. -/
structure DocumentOut where
  id : String
  predicate : String
  predication : List PredicationEntry
  pmid_count : Nat
  predication_count : Nat
  subject : EntityDoc
  object : EntityDoc
  deriving DecidableEq, Repr, Inhabited

/-- The trailing deletion of `construct_document`: remove the
`semantic_type_name` entry when its value is falsy. -/
def delSemtypeNameIfFalsy (e : EntityDoc) : EntityDoc :=
  match e.semtypeName with
  | some v => if semtypeNameTruthy v then e else { e with semtypeName := none }
  | none => e

/-- `construct_document` on a group index `(SUBJECT_CUI, PREDICATE,
OBJECT_CUI)` and the group's rows.  A one-row group takes the Series branch
of the source, a larger group the DataFrame branch. -/
def construct_document (index : String × String × String) (value : List Predication)
    (semanticTypeMap : List (String × String)) (sentenceMap : Nat → Option String) :
    DocumentOut :=
  let subjectCui := index.1
  let predicate := index.2.1
  let objectCui := index.2.2
  let idStr := subjectCui ++ dashLit ++ predicate ++ dashLit ++ objectCui
  let v0 := value.headI
  if value.length == 1 then
    let doc : DocumentOut :=
      { id := idStr, predicate := predicate,
        predication := [PredicationEntry.mk v0.predicationId v0.pmid v0.sentenceId
          (sentenceMap v0.sentenceId)],
        pmid_count := 1, predication_count := 1,
        subject := construct_entity subjectCui (StrOrList.str v0.subjectName)
          (StrOrList.str v0.subjectSemtype)
          (SemtypeNameVal.scalar (lastLookup semanticTypeMap v0.subjectSemtype))
          v0.subjectNovelty v0.subjectPrefixCol,
        object := construct_entity objectCui (StrOrList.str v0.objectName)
          (StrOrList.str v0.objectSemtype)
          (SemtypeNameVal.scalar (lastLookup semanticTypeMap v0.objectSemtype))
          v0.objectNovelty v0.objectPrefixCol }
    { doc with subject := delSemtypeNameIfFalsy doc.subject,
               object := delSemtypeNameIfFalsy doc.object }
  else
    let subjectSemtypeUnique := uniqueList (value.map (fun r => r.subjectSemtype))
    let subjectSemtypeNames := subjectSemtypeUnique.map (fun st => lastLookup semanticTypeMap st)
    let objectSemtypeUnique := uniqueList (value.map (fun r => r.objectSemtype))
    let objectSemtypeNames := objectSemtypeUnique.map (fun st => lastLookup semanticTypeMap st)
    let doc : DocumentOut :=
      { id := idStr, predicate := predicate,
        predication := value.map (fun r =>
          PredicationEntry.mk r.predicationId r.pmid r.sentenceId (sentenceMap r.sentenceId)),
        pmid_count := (uniqueList (value.map (fun r => r.pmid))).length,
        predication_count := value.length,
        subject := construct_entity subjectCui
          (squeeze_series (uniqueList (value.map (fun r => r.subjectName))))
          (squeeze_series subjectSemtypeUnique) (squeeze_list subjectSemtypeNames)
          v0.subjectNovelty v0.subjectPrefixCol,
        object := construct_entity objectCui
          (squeeze_series (uniqueList (value.map (fun r => r.objectName))))
          (squeeze_series objectSemtypeUnique) (squeeze_list objectSemtypeNames)
          v0.objectNovelty v0.objectPrefixCol }
    { doc with subject := delSemtypeNameIfFalsy doc.subject,
               object := delSemtypeNameIfFalsy doc.object }

/-- The group key of a row under the `INDEX_COLUMNS` index. -/
def groupKey (r : Predication) : String × String × String :=
  (r.subjectCui, r.predicate, r.objectCui)

/-- `generate_documents`: one document per distinct `(SUBJECT_CUI, PREDICATE,
OBJECT_CUI)` index value, built from the rows of that group.  (The source
iterates a Python set, so its emission order is unspecified; the embedding
fixes first-appearance order, on which no claim depends.) -/
def generate_documents (df : List Predication)
    (semanticTypeMap : List (String × String)) (sentenceMap : Nat → Option String) :
    List DocumentOut :=
  (uniqueList (df.map groupKey)).map (fun k =>
    construct_document k (df.filter (fun r => groupKey r == k)) semanticTypeMap sentenceMap)

/-!
## Concrete fixtures

The spec's §8 scenario row and the small tables used to evaluate the
definitions at concrete inputs.
-/

/-- The §8 scenario raw row. -/
def scenarioRaw8 : Predication :=
  { predicationId := 11021926, sentenceId := 5, pmid := 100, predicate := "INTERACTS_WITH",
    subjectCui := "2212|2213", subjectName := "FCGR2A|FCGR2B", subjectSemtype := "gngm",
    subjectNovelty := 1, objectCui := "C1332714|920", objectName := "CD4 gene|CD4",
    objectSemtype := "aapp", objectNovelty := 1 }

/-- The §8 row after expansion and prefix tagging: the frame the Equivalence
Collapser sees. -/
def scenarioFrame : List Predication := add_prefix_columns (explode_pipes [scenarioRaw8])

/-- The §8 oracle: `C1332714`'s canonical gene id is `920`. -/
def scenarioOracle (c : String) : Option String :=
  if c == "C1332714" then some "920" else none

def str2212 : String := "2212"

def str2213 : String := "2213"

def strC1332714 : String := "C1332714"

def str920 : String := "920"

def strCD4 : String := "CD4"

def strFCGR2B : String := "FCGR2B"

/-- The expanded record `(2212, C1332714)` of the §8 scenario, as the
pipeline produces it. -/
def scenarioConceptRec : Predication :=
  { scenarioRaw8 with
    subjectCui := "2212", subjectName := "FCGR2A", objectCui := "C1332714",
    objectName := "CD4 gene", isSubjectPiped := true, isObjectPiped := true,
    subjectPrefixCol := "ncbigene", objectPrefixCol := "umls" }

/-- The expanded record `(2212, 920)` of the §8 scenario. -/
def scenarioGeneRec : Predication :=
  { scenarioConceptRec with
    objectCui := "920", objectName := "CD4", objectPrefixCol := "ncbigene" }

/-- A single-fact raw row: no pipes, one record, one document. -/
def c2RawSingle : Predication :=
  { predicationId := 11021926, sentenceId := 5, pmid := 100, predicate := "AFFECTS",
    subjectCui := "C0001234", subjectName := "thing", subjectSemtype := "dsyn",
    subjectNovelty := 1, objectCui := "920", objectName := "CD4",
    objectSemtype := "gngm", objectNovelty := 1 }

/-- The single-fact row run through the whole cleaning pipeline. -/
def c2Frame : List Predication :=
  construct_semmed_predication_data_frame [c2RawSingle] [] [] (fun _ => none)

def c2NoSentence : Nat → Option String := fun _ => none

/-- The document emitted for the single-fact group. -/
def c2Doc : DocumentOut := (generate_documents c2Frame [] c2NoSentence).headI

def c2TripleId : String := "C0001234-AFFECTS-920"

def c2BareId : String := "11021926"

/-- A retirement mapping with a chain `C0000001 → C0000002 → C0000003`, so a
replacement identifier is itself retired. -/
def c5ChainMap : List RetireRow :=
  [RetireRow.mk "C0000001" "C0000002" (some ( "nameB", "t1" )),
   RetireRow.mk "C0000002" "C0000003" (some ( "nameC", "t1" ))]

/-- A record whose subject is the retired `C0000001`. -/
def c5Rec : Predication :=
  { predicationId := 7, sentenceId := 1, pmid := 50, predicate := "AFFECTS",
    subjectCui := "C0000001", subjectName := "nA", subjectSemtype := "t1",
    subjectNovelty := 1, objectCui := "920", objectName := "CD4",
    objectSemtype := "t1", objectNovelty := 1 }

/-- A retirement mapping whose replacement identifiers are not themselves
retired. -/
def c5GoodMap : List RetireRow :=
  [RetireRow.mk "C0000001" "C0000002" (some ( "nameB", "t1" ))]

/-- The §8 retirement scenario: `C4082455` is replaced by `C4300557`, which
has no dataset- or reference-sourced name. -/
def c6RawMapping : List (String × String) := [( "C4082455", "C4300557" )]

def c4082455S : String := "C4082455"

/-- A record referencing the retired `C4082455` on the object side. -/
def c6Rec : Predication :=
  { predicationId := 9, sentenceId := 2, pmid := 60, predicate := "AFFECTS",
    subjectCui := "C0999999", subjectName := "x", subjectSemtype := "t2",
    subjectNovelty := 1, objectCui := "C4082455", objectName := "y",
    objectSemtype := "t2", objectNovelty := 1 }

/-- First row of a group whose two members carry distinct, unmapped subject
semantic types. -/
def c7RecA : Predication :=
  { predicationId := 1, sentenceId := 1, pmid := 10, predicate := "INTERACTS_WITH",
    subjectCui := "C0000001", subjectName := "alpha", subjectSemtype := "aaaa",
    subjectNovelty := 1, objectCui := "C0000002", objectName := "beta",
    objectSemtype := "cccc", objectNovelty := 1,
    subjectPrefixCol := "umls", objectPrefixCol := "umls" }

/-- Second row of that group: same triple, different subject semtype. -/
def c7RecB : Predication :=
  { c7RecA with predicationId := 2, subjectSemtype := "bbbb" }

/-- A frame with one candidate concept identifier, for the collapser's
oracle-failure fixture. -/
def c8Df : List Predication :=
  [({ scenarioConceptRec with subjectCui := "C1332714", subjectPrefixCol := "umls" })]

def c8OkMap : List (String × String) := [( "C1332714", "920" )]

/-- A batch query that always succeeds. -/
def c8qOk : List String → Except String (List (String × String)) :=
  fun _ => Except.ok c8OkMap

def c8ErrMsg : String := "HTTP 500"

/-- A batch query that always fails. -/
def c8qErr : List String → Except String (List (String × String)) :=
  fun _ => Except.error c8ErrMsg

/-- The single batch the fixture frame generates. -/
def c8Chunk : List String := [strC1332714]

/-- The pipeline output for the §8 row (no retirements). -/
def c9Out : List Predication :=
  construct_semmed_predication_data_frame [scenarioRaw8] [] [] scenarioOracle

def c9Rec : Predication := c9Out.headI

/-- Subject and object token lists of the §8 row. -/
def c4SubTokens : List String := [str2212, str2213]

def c4SubNames : List String := [ "FCGR2A", "FCGR2B" ]

def c4ObjTokens : List String := [strC1332714, str920]

def c4ObjNames : List String := [ "CD4 gene", strCD4 ]

def c4Id3 : String := "11021926-3"

def c4Id1 : String := "11021926-1"

/-!
## Theorems
-/

lemma delSemtypeNameIfFalsy_keyValue (e : EntityDoc) :
    (delSemtypeNameIfFalsy e).keyValue = e.keyValue := by
  unfold delSemtypeNameIfFalsy
  rcases h : e.semtypeName with _ | v
  · rfl
  · dsimp only
    split <;> rfl

lemma construct_document_fields (index : String × String × String)
    (value : List Predication) (m : List (String × String)) (sm : Nat → Option String) :
    (construct_document index value m sm).id =
      index.1 ++ dashLit ++ index.2.1 ++ dashLit ++ index.2.2 ∧
    (construct_document index value m sm).predicate = index.2.1 ∧
    (construct_document index value m sm).subject.keyValue = index.1 ∧
    (construct_document index value m sm).object.keyValue = index.2.2 := by
  unfold construct_document
  split <;> simp [construct_entity, delSemtypeNameIfFalsy_keyValue]

/-- C2 (amended): every emitted document's id is the group triple (subject
identifier, predicate, object identifier) joined by the fixed separator
`"-"`; the bare-predication-id scheme of the intermediate `_ID` column never
reaches an emitted document. -/
theorem c2_document_id_is_triple_join (df : List Predication)
    (m : List (String × String)) (sm : Nat → Option String) (doc : DocumentOut)
    (hdoc : doc ∈ generate_documents df m sm) :
    doc.id = doc.subject.keyValue ++ dashLit ++ doc.predicate ++ dashLit ++
      doc.object.keyValue := by
  unfold generate_documents at hdoc
  rcases List.mem_map.1 hdoc with ⟨k, hk, rfl⟩
  obtain ⟨h1, h2, h3, h4⟩ := construct_document_fields k
    (df.filter (fun r => groupKey r == k)) m sm
  rw [h1, h2, h3, h4]

/-- C2 witness: the theorem applied to the document emitted for the concrete
single-fact pipeline run. -/
theorem c2_document_id_witness :
    c2Doc.id = c2Doc.subject.keyValue ++ dashLit ++ c2Doc.predicate ++ dashLit ++
      c2Doc.object.keyValue :=
  c2_document_id_is_triple_join c2Frame [] c2NoSentence c2Doc (by decide)

/-- C2 counterexample: a single-fact group (group size 1, no multi-valued
side) whose `_ID` column is the bare predication id `11021926` still emits a
document whose id is the triple join, not the bare predication id — the
claim's exceptional id scheme does not occur in emitted output. -/
theorem c2_single_fact_id_not_bare :
    (generate_documents c2Frame [] c2NoSentence).map (fun d => d.id) = [c2TripleId] ∧
    c2Frame.map (fun r => r.docId) = [c2BareId] ∧ ¬(c2TripleId = c2BareId) := by
  decide

/-- C3 counterexample: on the §8 row, whose object field `C1332714|920`
mixes a concept identifier with a gene identifier, `explode_pipes` keeps all
token pairs — four atomic records, two of them from the second object token
`920` — instead of squeezing the side to its first token (which would leave
two records and none referencing `920`). -/
theorem c3_mixed_field_not_squeezed :
    (explode_pipes [scenarioRaw8]).map (fun r => (r.subjectCui, r.objectCui)) =
      [(str2212, strC1332714), (str2213, strC1332714),
       (str2212, str920), (str2213, str920)] ∧
    ¬((explode_pipes [scenarioRaw8]).length = 2) := by
  decide

/-- C3 (amended): no squeeze happens — on a piped row every token/name pair
of the subject and object splits participates in the cartesian expansion;
the only pairs dropped are those with an empty identifier token or the
literal `"None"` name token. -/
theorem c3_all_tokens_expanded (r : Predication) (oc onm sc sn : String)
    (hpiped : (containsPipe r.subjectCui || containsPipe r.objectCui) = true)
    (ho : (oc, onm) ∈ (splitPipes r.objectCui).zip (splitPipes r.objectName))
    (hs : (sc, sn) ∈ (splitPipes r.subjectCui).zip (splitPipes r.subjectName))
    (hoc : (oc == emptyLit) = false) (honm : (onm == noneLit) = false)
    (hsc : (sc == emptyLit) = false) (hsn : (sn == noneLit) = false) :
    ({ r with
        isSubjectPiped := containsPipe r.subjectCui,
        isObjectPiped := containsPipe r.objectCui,
        subjectCui := sc, subjectName := sn,
        objectCui := oc, objectName := onm } : Predication) ∈ explode_pipes [r] := by
  unfold explode_pipes
  dsimp only
  rw [List.mem_append]
  right
  rw [List.mem_filter]
  constructor
  · simp only [List.map_cons, List.map_nil, List.filter_cons, List.filter_nil]
    split
    · rw [List.flatMap_cons, List.flatMap_nil, List.append_nil]
      unfold explodeRow
      exact List.mem_flatMap.2 ⟨(oc, onm), ho, List.mem_map.2 ⟨(sc, sn), hs, rfl⟩⟩
    · next h => exact absurd hpiped h
  · simp [hoc, honm, hsc, hsn]

/-- C3 witness: the §8 row's second object token pair `(920, CD4)` combined
with the second subject token pair `(2213, FCGR2B)` yields an atomic
record. -/
theorem c3_all_tokens_expanded_witness :
    ({ scenarioRaw8 with
        isSubjectPiped := containsPipe scenarioRaw8.subjectCui,
        isObjectPiped := containsPipe scenarioRaw8.objectCui,
        subjectCui := str2213, subjectName := strFCGR2B,
        objectCui := str920, objectName := strCD4 } : Predication) ∈
      explode_pipes [scenarioRaw8] :=
  c3_all_tokens_expanded scenarioRaw8 str920 strCD4 str2213 strFCGR2B
    (by decide) (by decide) (by decide) (by decide) (by decide) (by decide) (by decide)

/-- C7 (code bug): a group whose two records carry the same triple but two
distinct subject semantic-type abbreviations, neither of which has a
full-name mapping, emits `semantic_type_name = [None, None]` for the subject
— the non-empty Python list is truthy, so the `del` guard of
`construct_document` does not fire — while the single-abbreviation object
side is correctly omitted (`none`). -/
theorem c7_unmapped_semtype_list_not_omitted :
    (generate_documents [c7RecA, c7RecB] [] c2NoSentence).map
      (fun d => (d.subject.semtypeName, d.object.semtypeName)) =
      [(some (SemtypeNameVal.lst [none, none]), none)] := by
  decide

/-- C1 counterexample: on the §8 scenario input with the oracle mapping
`C1332714` to `920`, the Collapser keeps the two records referencing
`C1332714` and drops the two records referencing `920` — the opposite of the
claimed drop direction, under which no surviving record would reference
`C1332714`. -/
theorem c1_concept_records_survive :
    (delete_equivalent_ncbigene_ids scenarioFrame scenarioOracle).map
      (fun r => (r.subjectCui, r.objectCui)) =
      [(str2212, strC1332714), (str2213, strC1332714)] ∧
    ¬(∀ r ∈ delete_equivalent_ncbigene_ids scenarioFrame scenarioOracle,
        r.objectCui ≠ strC1332714) := by
  decide

/-- C1 (amended): the drop direction is reversed — when the oracle maps the
retained candidate concept identifier of a predication to a gene identifier
carried by another record of the same predication id, the gene-identifier
record (`rg`) is the one removed, and the concept-identifier record (`r`) is
kept (provided it is not itself removed by the subject side).  This matches
the function's name: it deletes the equivalent NCBIGene-id rows. -/
theorem c1_gene_record_removed_concept_kept (df : List Predication)
    (oracle : String → Option String) (r rg : Predication)
    (hr : r ∈ df) (_hrg : rg ∈ df)
    (hpid : rg.predicationId = r.predicationId)
    (hgPiped : rg.isObjectPiped = true)
    (hretained : deqPidObjCuiMap df oracle r.predicationId = some r.objectCui)
    (hequiv : deqObjMap df oracle r.objectCui = some rg.objectCui)
    (hne : rg.objectCui ≠ r.objectCui)
    (hnsub : deqDropSub df oracle r = false) :
    rg ∉ delete_equivalent_ncbigene_ids df oracle ∧
      r ∈ delete_equivalent_ncbigene_ids df oracle := by
  have hgid : deqPidObjGidMap df oracle r.predicationId = some rg.objectCui := by
    unfold deqPidObjGidMap
    rw [hretained]
    simpa using hequiv
  constructor
  · intro hmem
    have h2 := (List.mem_filter.1 hmem).2
    have hdrop : deqDropObj df oracle rg = true := by
      unfold deqDropObj
      rw [hpid, hgid, hgPiped]
      simp
    rw [hdrop] at h2
    simp at h2
  · refine List.mem_filter.2 ⟨hr, ?_⟩
    have hbeq : (some rg.objectCui == some r.objectCui) = false := by
      simp [hne]
    have hdropObj : deqDropObj df oracle r = false := by
      unfold deqDropObj
      rw [hgid, hbeq, Bool.and_false]
    rw [hnsub, hdropObj]
    rfl

/-- C1 witness: the amended theorem applied to the §8 frame — the `(2212,
920)` record is removed, the `(2212, C1332714)` record survives. -/
theorem c1_gene_record_removed_witness :
    scenarioGeneRec ∉ delete_equivalent_ncbigene_ids scenarioFrame scenarioOracle ∧
      scenarioConceptRec ∈ delete_equivalent_ncbigene_ids scenarioFrame scenarioOracle :=
  c1_gene_record_removed_concept_kept scenarioFrame scenarioOracle
    scenarioConceptRec scenarioGeneRec (by decide) (by decide) (by decide) (by decide)
    (by decide) (by decide) (by decide) (by decide)

lemma find?_map_overwrite {κ ν : Type} [BEq κ] [LawfulBEq κ]
    (m : List (κ × ν)) (k : κ) (v : ν) (h : m.any (fun p => p.1 == k) = true) :
    (m.map (fun p => if p.1 == k then (k, v) else p)).find? (fun p => p.1 == k) =
      some (k, v) := by
  induction m with
  | nil => simp at h
  | cons q m ih =>
    rw [List.map_cons]
    by_cases hq : (q.1 == k) = true
    · rw [if_pos hq]
      exact List.find?_cons_of_pos _ (by simp)
    · rw [if_neg hq, List.find?_cons_of_neg _ (by simp [hq])]
      refine ih ?_
      rw [List.any_cons] at h
      simpa [hq] using h

lemma find?_map_overwrite_ne {κ ν : Type} [BEq κ] [LawfulBEq κ]
    (m : List (κ × ν)) (k : κ) (v : ν) (k' : κ) (h : ¬(k' = k)) :
    (m.map (fun p => if p.1 == k then (k, v) else p)).find? (fun p => p.1 == k') =
      m.find? (fun p => p.1 == k') := by
  induction m with
  | nil => rfl
  | cons q m ih =>
    rw [List.map_cons]
    by_cases hq : (q.1 == k) = true
    · have hqk : q.1 = k := eq_of_beq hq
      rw [if_pos hq]
      rw [List.find?_cons_of_neg _ (by
        simp only [Bool.not_eq_true, beq_eq_false_iff_ne]
        exact fun he => h he.symm)]
      rw [List.find?_cons_of_neg _ (by
        simp only [Bool.not_eq_true, beq_eq_false_iff_ne, hqk]
        exact fun he => h he.symm)]
      exact ih
    · rw [if_neg hq, List.find?_cons]
      rw [List.find?_cons]
      rw [ih]

lemma dictGet?_dictInsert_self {κ ν : Type} [BEq κ] [LawfulBEq κ]
    (m : List (κ × ν)) (k : κ) (v : ν) :
    dictGet? (dictInsert m k v) k = some v := by
  unfold dictGet? dictInsert
  by_cases h : m.any (fun p => p.1 == k) = true
  · rw [if_pos h, find?_map_overwrite m k v h]
    rfl
  · rw [if_neg h, List.find?_append]
    have hnone : m.find? (fun p => p.1 == k) = none :=
      List.find?_eq_none.2 (fun x hx hbx => h (List.any_eq_true.2 ⟨x, hx, hbx⟩))
    rw [hnone, Option.none_or, List.find?_cons_of_pos _ (by simp)]
    rfl

lemma dictGet?_dictInsert_ne {κ ν : Type} [BEq κ] [LawfulBEq κ]
    (m : List (κ × ν)) (k : κ) (v : ν) (k' : κ) (h : ¬(k' = k)) :
    dictGet? (dictInsert m k v) k' = dictGet? m k' := by
  unfold dictGet? dictInsert
  by_cases hany : m.any (fun p => p.1 == k) = true
  · rw [if_pos hany, find?_map_overwrite_ne m k v k' h]
  · rw [if_neg hany, List.find?_append]
    have hone : List.find? (fun p => p.1 == k') [(k, v)] = none := by
      rw [List.find?_cons_of_neg _ (by
        simp only [Bool.not_eq_true, beq_eq_false_iff_ne]
        exact fun he => h he.symm)]
      rfl
    rw [hone, Option.or_none]

lemma dictGet?_foldl_dictInsert {κ ν : Type} [BEq κ] [LawfulBEq κ]
    (l : List (κ × ν)) (k : κ) :
    ∀ m : List (κ × ν),
      dictGet? (l.foldl (fun m p => dictInsert m p.1 p.2) m) k =
        (((l.filter (fun p => p.1 == k)).getLast?).map (fun p => p.2)).or (dictGet? m k) := by
  induction l with
  | nil =>
    intro m
    rw [List.foldl_nil, List.filter_nil]
    rfl
  | cons p ps ih =>
    intro m
    rw [List.foldl_cons, ih, List.filter_cons]
    by_cases hpk : (p.1 == k) = true
    · have hk : p.1 = k := eq_of_beq hpk
      have hself : dictGet? (dictInsert m p.1 p.2) k = some p.2 := by
        rw [hk]
        exact dictGet?_dictInsert_self m k p.2
      rw [if_pos hpk, hself]
      cases hfil : ps.filter (fun q => q.1 == k) with
      | nil => simp [hfil]
      | cons q qs =>
        rw [List.getLast?_cons_cons]
        have hsome : ((q :: qs).getLast?).isSome = true :=
          List.getLast?_isSome.2 (by simp)
        rcases Option.isSome_iff_exists.1 hsome with ⟨a, ha⟩
        rw [ha]
        rfl
    · have hk : ¬(k = p.1) := fun he => hpk (by rw [he]; exact beq_self_eq_true p.1)
      rw [dictGet?_dictInsert_ne m p.1 p.2 k hk, if_neg hpk]

/-- The dict built by `dict(zip(pairs))` answers each key with the value of
the key's last pair. -/
lemma dictGet?_dictOfZip {κ ν : Type} [BEq κ] [LawfulBEq κ]
    (l : List (κ × ν)) (k : κ) :
    dictGet? (dictOfZip l) k =
      ((l.filter (fun p => p.1 == k)).getLast?).map (fun p => p.2) := by
  unfold dictOfZip
  rw [dictGet?_foldl_dictInsert]
  have : dictGet? ([] : List (κ × ν)) k = none := rfl
  rw [this, Option.or_none]

/-- C10 (implicit claim): the Collapser's per-side lookup structures are
dicts keyed by predication id alone, so each predication id retains exactly
one candidate CUI per side — the one of the last matching row in frame order
— and the deletion criterion of each side consults only the gene id
equivalent to that single retained CUI. -/
theorem c10_last_candidate_cui_wins (df : List Predication)
    (oracle : String → Option String) :
    (∀ pid : Nat,
      deqPidSubCuiMap df oracle pid =
        (((deqPidSubCuiPairs df oracle).filter (fun p => p.1 == pid)).getLast?).map
          (fun p => p.2) ∧
      deqPidObjCuiMap df oracle pid =
        (((deqPidObjCuiPairs df oracle).filter (fun p => p.1 == pid)).getLast?).map
          (fun p => p.2)) ∧
    (∀ r : Predication,
      deqDropSub df oracle r =
        (r.isSubjectPiped &&
          (((((deqPidSubCuiPairs df oracle).filter
              (fun p => p.1 == r.predicationId)).getLast?).map (fun p => p.2)).bind
            (deqSubMap df oracle) == some r.subjectCui)) ∧
      deqDropObj df oracle r =
        (r.isObjectPiped &&
          (((((deqPidObjCuiPairs df oracle).filter
              (fun p => p.1 == r.predicationId)).getLast?).map (fun p => p.2)).bind
            (deqObjMap df oracle) == some r.objectCui))) := by
  refine ⟨fun pid => ⟨?_, ?_⟩, fun r => ⟨?_, ?_⟩⟩
  · exact dictGet?_dictOfZip (deqPidSubCuiPairs df oracle) pid
  · exact dictGet?_dictOfZip (deqPidObjCuiPairs df oracle) pid
  · unfold deqDropSub deqPidSubGidMap deqPidSubCuiMap
    rw [dictGet?_dictOfZip]
  · unfold deqDropObj deqPidObjGidMap deqPidObjCuiMap
    rw [dictGet?_dictOfZip]

lemma runChunks_all_ok (q : List String → Except String (List (String × String)))
    (cs : List (List String)) (h : ∀ c ∈ cs, ∃ m, q c = Except.ok m) :
    ∃ ms : List (List (String × String)),
      cs.map q = ms.map Except.ok ∧ runChunks q cs = Except.ok ms.flatten := by
  induction cs with
  | nil => exact ⟨[], rfl, rfl⟩
  | cons c cs ih =>
    obtain ⟨m, hm⟩ := h c (List.mem_cons_self c cs)
    obtain ⟨ms, hmap, hrun⟩ := ih (fun c2 hc2 => h c2 (List.mem_cons_of_mem c hc2))
    refine ⟨m :: ms, ?_, ?_⟩
    · rw [List.map_cons, hm, hmap, List.map_cons]
    · simp [runChunks, hm, hrun]

lemma runChunks_error (q : List String → Except String (List (String × String)))
    (pre : List (List String)) (c : List String) (post : List (List String))
    (e : String) (hpre : ∀ c2 ∈ pre, ∃ m, q c2 = Except.ok m)
    (hc : q c = Except.error e) :
    runChunks q (pre ++ c :: post) = Except.error e := by
  induction pre with
  | nil => simp [runChunks, hc]
  | cons p ps ih =>
    obtain ⟨m, hm⟩ := hpre p (List.mem_cons_self p ps)
    have hrest := ih (fun c2 h2 => hpre c2 (List.mem_cons_of_mem p h2))
    simp [runChunks, hm, hrest]

/-- C8: oracle failure is fatal and complete.  If every batch succeeds, the
collapsing step completes, applying the merged per-identifier map; if any
batch fails (every batch before it having succeeded, as the comprehension
evaluates them in order), the whole step propagates that error and the
resulting value is the error — no record is dropped on the basis of the
failed run. -/
theorem c8_oracle_failure_is_fatal (df : List Predication)
    (q : List String → Except String (List (String × String))) (chunkSize : Nat) :
    ((∀ c ∈ iter_n (nodeNormCandidateCuis df) chunkSize, ∃ m, q c = Except.ok m) →
      ∃ ms : List (List (String × String)),
        (iter_n (nodeNormCandidateCuis df) chunkSize).map q = ms.map Except.ok ∧
        delete_equivalent_ncbigene_ids_checked df q chunkSize =
          Except.ok (delete_equivalent_ncbigene_ids df
            (fun c => lastLookup ms.flatten c))) ∧
    (∀ (pre : List (List String)) (c : List String) (post : List (List String))
        (e : String),
      iter_n (nodeNormCandidateCuis df) chunkSize = pre ++ c :: post →
      (∀ c2 ∈ pre, ∃ m, q c2 = Except.ok m) → q c = Except.error e →
      delete_equivalent_ncbigene_ids_checked df q chunkSize = Except.error e) := by
  constructor
  · intro h
    obtain ⟨ms, hmap, hrun⟩ :=
      runChunks_all_ok q (iter_n (nodeNormCandidateCuis df) chunkSize) h
    refine ⟨ms, hmap, ?_⟩
    unfold delete_equivalent_ncbigene_ids_checked
      query_node_normalizer_for_equivalent_ncbigene_ids
    rw [hrun]
  · intro pre c post e heq hpre herr
    unfold delete_equivalent_ncbigene_ids_checked
      query_node_normalizer_for_equivalent_ncbigene_ids
    rw [heq, runChunks_error q pre c post e hpre herr]

/-- C8 witness: on the fixture frame, an all-success query completes with
the merged map and an erroring batch aborts the whole step with its error. -/
theorem c8_oracle_failure_witness :
    (∃ ms : List (List (String × String)),
      (iter_n (nodeNormCandidateCuis c8Df) 1).map c8qOk = ms.map Except.ok ∧
      delete_equivalent_ncbigene_ids_checked c8Df c8qOk 1 =
        Except.ok (delete_equivalent_ncbigene_ids c8Df
          (fun c => lastLookup ms.flatten c))) ∧
    delete_equivalent_ncbigene_ids_checked c8Df c8qErr 1 = Except.error c8ErrMsg :=
  ⟨(c8_oracle_failure_is_fatal c8Df c8qOk 1).1 (fun c hc => ⟨c8OkMap, rfl⟩),
   (c8_oracle_failure_is_fatal c8Df c8qErr 1).2 [] c8Chunk [] c8ErrMsg (by decide)
     (fun c2 hc2 => absurd hc2 (List.not_mem_nil c2)) rfl⟩

lemma filter_eq_filter_filter {α : Type} {p kp : α → Bool} (l : List α)
    (h : ∀ x ∈ l, kp x = false → p x = false) :
    l.filter p = (l.filter kp).filter p := by
  induction l with
  | nil => rfl
  | cons a t ih =>
    have ht := ih (fun x hx hf => h x (List.mem_cons_of_mem a hx) hf)
    by_cases hk : kp a = true
    · by_cases hp : p a = true
      · simp [List.filter_cons, hk, hp, ht]
      · simp [List.filter_cons, hk, hp, ht]
    · have hka : kp a = false := by revert hk; cases kp a <;> simp
      have hpa : p a = false := h a (List.mem_cons_self a t) hka
      simp [List.filter_cons, hka, hpa, ht]

lemma flatMap_filter_eq {α β : Type} {p kp : α → Bool} (F : α → List β) (l : List α)
    (h : ∀ x ∈ l, kp x = false → p x = true → F x = []) :
    (l.filter p).flatMap F = ((l.filter kp).filter p).flatMap F := by
  induction l with
  | nil => rfl
  | cons a t ih =>
    have ht := ih (fun x hx h1 h2 => h x (List.mem_cons_of_mem a hx) h1 h2)
    by_cases hk : kp a = true
    · by_cases hp : p a = true
      · simp [List.filter_cons, hk, hp, List.flatMap_cons, ht]
      · simp [List.filter_cons, hk, hp, ht]
    · have hka : kp a = false := by revert hk; cases kp a <;> simp
      by_cases hp : p a = true
      · have hFa := h a (List.mem_cons_self a t) hka hp
        simp [List.filter_cons, hka, hp, List.flatMap_cons, hFa, ht]
      · simp [List.filter_cons, hka, hp, ht]

lemma dedupByKeyAux_subset {α β : Type} [BEq β] (key : α → β) :
    ∀ (seen : List β) (l : List α), ∀ x ∈ dedupByKeyAux key seen l, x ∈ l := by
  intro seen l
  induction l generalizing seen with
  | nil => intro x hx; exact absurd hx (List.not_mem_nil x)
  | cons a t ih =>
    intro x hx
    unfold dedupByKeyAux at hx
    by_cases hc : seen.contains (key a) = true
    · rw [if_pos hc] at hx
      exact List.mem_cons_of_mem a (ih seen x hx)
    · rw [if_neg hc] at hx
      rcases List.mem_cons.1 hx with h | h
      · exact h ▸ List.mem_cons_self a t
      · exact List.mem_cons_of_mem a (ih (key a :: seen) x h)

lemma preferredCuiInfo_subset (mapping : List (String × String))
    (semmedTbl umlsTbl : List CuiInfo) :
    ∀ i ∈ preferredCuiInfo mapping semmedTbl umlsTbl, i ∈ semmedTbl ++ umlsTbl := by
  intro i hi
  unfold preferredCuiInfo dedupByKey at hi
  dsimp only at hi
  have hi2 := dedupByKeyAux_subset (fun i => (i.cui, i.semtype)) [] _ i hi
  rcases List.mem_append.1 hi2 with h | h
  · exact List.mem_append.2 (Or.inl (List.mem_filter.1 h).1)
  · exact List.mem_append.2 (Or.inr (List.mem_filter.1 h).1)

lemma enrich_hits_nil (mapping : List (String × String))
    (semmedTbl umlsTbl : List CuiInfo) (R : String)
    (hnoname : ∀ p ∈ mapping, p.1 = R → ∀ i ∈ semmedTbl ++ umlsTbl, i.cui ≠ p.2)
    (p : String × String) (hp : p ∈ mapping) (hpR : p.1 = R) :
    (preferredCuiInfo mapping semmedTbl umlsTbl).filter (fun i => i.cui == p.2) = [] := by
  refine List.filter_eq_nil_iff.2 (fun i hi hbeq => ?_)
  exact hnoname p hp hpR i (preferredCuiInfo_subset mapping semmedTbl umlsTbl i hi)
    (eq_of_beq hbeq)

lemma enrich_key_mem (mapping : List (String × String))
    (semmedTbl umlsTbl : List CuiInfo) (R : String)
    (hkey : R ∈ mapping.map (fun p => p.1))
    (hnoname : ∀ p ∈ mapping, p.1 = R → ∀ i ∈ semmedTbl ++ umlsTbl, i.cui ≠ p.2) :
    R ∈ retirementKeys (add_cui_name_and_semtype_to_retirement_mapping
      mapping semmedTbl umlsTbl) := by
  rcases List.mem_map.1 hkey with ⟨p, hp, hpR⟩
  have hnil := enrich_hits_nil mapping semmedTbl umlsTbl R hnoname p hp hpR
  refine List.mem_map.2 ⟨RetireRow.mk p.1 p.2 none, ?_, hpR⟩
  unfold add_cui_name_and_semtype_to_retirement_mapping
  refine List.mem_flatMap.2 ⟨p, hp, ?_⟩
  dsimp only
  rw [hnil]
  exact List.mem_singleton.2 rfl

lemma enrich_info_none (mapping : List (String × String))
    (semmedTbl umlsTbl : List CuiInfo) (R : String)
    (hnoname : ∀ p ∈ mapping, p.1 = R → ∀ i ∈ semmedTbl ++ umlsTbl, i.cui ≠ p.2) :
    ∀ m ∈ add_cui_name_and_semtype_to_retirement_mapping mapping semmedTbl umlsTbl,
      m.cui1 = R → m.info = none := by
  intro m hm hmR
  unfold add_cui_name_and_semtype_to_retirement_mapping at hm
  rcases List.mem_flatMap.1 hm with ⟨p, hp, hgen⟩
  dsimp only at hgen
  by_cases hemp : ((preferredCuiInfo mapping semmedTbl umlsTbl).filter
      (fun i => i.cui == p.2)).isEmpty = true
  · rw [if_pos hemp] at hgen
    rw [List.mem_singleton.1 hgen]
  · rw [if_neg hemp] at hgen
    rcases List.mem_map.1 hgen with ⟨i, hi, hmk⟩
    have hpR : p.1 = R := by rw [← hmR, ← hmk]
    have hnil := enrich_hits_nil mapping semmedTbl umlsTbl R hnoname p hp hpR
    rw [hnil] at hemp
    exact absurd rfl hemp

lemma resolveSubject_object_fields (M : List RetireRow) (r r2 : Predication)
    (h : r2 ∈ resolveSubject M r) :
    r2.objectCui = r.objectCui ∧ r2.objectSemtype = r.objectSemtype := by
  unfold resolveSubject at h
  by_cases hret : isSubjectRetired M r = true
  · rw [if_pos hret] at h
    rcases List.mem_filterMap.1 h with ⟨m, _, hf⟩
    rcases hinfo : m.info with _ | nv
    · simp only [hinfo] at hf
      exact absurd hf (by simp)
    · simp only [hinfo] at hf
      by_cases hcond : (m.cui1 == r.subjectCui && nv.2 == r.subjectSemtype) = true
      · rw [if_pos hcond] at hf
        have h2 := Option.some.inj hf
        rw [← h2]
        exact ⟨rfl, rfl⟩
      · rw [if_neg hcond] at hf
        exact absurd hf (by simp)
  · rw [if_neg hret] at h
    rw [List.mem_singleton.1 h]
    exact ⟨rfl, rfl⟩

lemma resolveSubject_nil_of_key_none (M : List RetireRow) (r : Predication) (R : String)
    (hsubj : r.subjectCui = R) (hRkey : R ∈ retirementKeys M)
    (hnone : ∀ m ∈ M, m.cui1 = R → m.info = none) :
    resolveSubject M r = [] := by
  unfold resolveSubject
  have hret : isSubjectRetired M r = true := by
    unfold isSubjectRetired
    rw [hsubj]
    exact List.elem_iff.2 hRkey
  rw [if_pos hret]
  refine List.filterMap_eq_nil_iff.2 (fun m hm => ?_)
  rcases hinfo : m.info with _ | nv
  · rfl
  · dsimp only
    have hcond : (m.cui1 == r.subjectCui) = false := by
      refine beq_eq_false_iff_ne.2 (fun he => ?_)
      have := hnone m hm (by rw [he, hsubj])
      rw [hinfo] at this
      exact Option.noConfusion this
    rw [hcond, Bool.false_and, if_neg (by simp)]

lemma resolveObject_nil_of_key_none (M : List RetireRow) (r : Predication) (R : String)
    (hobj : r.objectCui = R) (hRkey : R ∈ retirementKeys M)
    (hnone : ∀ m ∈ M, m.cui1 = R → m.info = none) :
    resolveObject M r = [] := by
  unfold resolveObject
  have hret : isObjectRetired M r = true := by
    unfold isObjectRetired
    rw [hobj]
    exact List.elem_iff.2 hRkey
  rw [if_pos hret]
  refine List.filterMap_eq_nil_iff.2 (fun m hm => ?_)
  rcases hinfo : m.info with _ | nv
  · rfl
  · dsimp only
    have hcond : (m.cui1 == r.objectCui) = false := by
      refine beq_eq_false_iff_ne.2 (fun he => ?_)
      have := hnone m hm (by rw [he, hobj])
      rw [hinfo] at this
      exact Option.noConfusion this
    rw [hcond, Bool.false_and, if_neg (by simp)]

lemma resolve_contrib_nil (M : List RetireRow) (R : String)
    (hRkey : R ∈ retirementKeys M)
    (hnone : ∀ m ∈ M, m.cui1 = R → m.info = none)
    (r : Predication) (href : r.subjectCui = R ∨ r.objectCui = R) :
    (resolveSubject M r).flatMap (resolveObject M) = [] := by
  rcases href with hsubj | hobj
  · rw [resolveSubject_nil_of_key_none M r R hsubj hRkey hnone]
    rfl
  · refine List.flatMap_eq_nil_iff.2 (fun r2 hr2 => ?_)
    have hprev := (resolveSubject_object_fields M r r2 hr2).1
    exact resolveObject_nil_of_key_none M r2 R (by rw [hprev, hobj]) hRkey hnone

/-- C6: a retired identifier `R` all of whose replacements have neither a
dataset-sourced nor a reference-sourced name fails the `(identifier, semantic
type)` join, so every record whose subject or object references `R` is
dropped entirely by the Retirement Resolver: its output equals the output on
the input with those records removed, hence no document is ever emitted from
them. -/
theorem c6_unnamed_replacement_dropped (mapping : List (String × String))
    (semmedTbl umlsTbl : List CuiInfo) (df : List Predication) (R : String)
    (hkey : R ∈ mapping.map (fun p => p.1))
    (hnoname : ∀ p ∈ mapping, p.1 = R → ∀ i ∈ semmedTbl ++ umlsTbl, i.cui ≠ p.2) :
    map_retired_cuis df
        (add_cui_name_and_semtype_to_retirement_mapping mapping semmedTbl umlsTbl) =
      map_retired_cuis
        (df.filter (fun r => !(r.subjectCui == R || r.objectCui == R)))
        (add_cui_name_and_semtype_to_retirement_mapping mapping semmedTbl umlsTbl) := by
  have hRkey := enrich_key_mem mapping semmedTbl umlsTbl R hkey hnoname
  have hnone := enrich_info_none mapping semmedTbl umlsTbl R hnoname
  set M := add_cui_name_and_semtype_to_retirement_mapping mapping semmedTbl umlsTbl with hMdef
  have hrefmem : ∀ x : Predication,
      (!(x.subjectCui == R || x.objectCui == R)) = false →
      x.subjectCui = R ∨ x.objectCui = R := by
    intro x hx
    have : (x.subjectCui == R || x.objectCui == R) = true := by
      revert hx; cases h : (x.subjectCui == R || x.objectCui == R) <;> simp
    rcases Bool.or_eq_true .. ▸ this with h | h
    · exact Or.inl (eq_of_beq h)
    · exact Or.inr (eq_of_beq h)
  have hretired : ∀ x : Predication, x.subjectCui = R ∨ x.objectCui = R →
      (isSubjectRetired M x || isObjectRetired M x) = true := by
    intro x hx
    rcases hx with h | h
    · refine Bool.or_eq_true .. ▸ Or.inl ?_
      unfold isSubjectRetired
      rw [h]
      exact List.elem_iff.2 hRkey
    · refine Bool.or_eq_true .. ▸ Or.inr ?_
      unfold isObjectRetired
      rw [h]
      exact List.elem_iff.2 hRkey
  have hkept : df.filter (fun r => !(isSubjectRetired M r || isObjectRetired M r)) =
      (df.filter (fun r => !(r.subjectCui == R || r.objectCui == R))).filter
        (fun r => !(isSubjectRetired M r || isObjectRetired M r)) := by
    refine filter_eq_filter_filter df (fun x hx hf => ?_)
    have h1 := hretired x (hrefmem x hf)
    rw [h1]
    rfl
  have hres : (df.filter (fun r => isSubjectRetired M r || isObjectRetired M r)).flatMap
        (fun r => (resolveSubject M r).flatMap (resolveObject M)) =
      ((df.filter (fun r => !(r.subjectCui == R || r.objectCui == R))).filter
          (fun r => isSubjectRetired M r || isObjectRetired M r)).flatMap
        (fun r => (resolveSubject M r).flatMap (resolveObject M)) := by
    refine flatMap_filter_eq _ df (fun x hx hf hp => ?_)
    exact resolve_contrib_nil M R hRkey hnone x (hrefmem x hf)
  unfold map_retired_cuis
  dsimp only
  rw [hkept, hres]

/-- C6 witness: the §8 retirement scenario — `C4082455` maps only to
`C4300557`, which has no name in either table, so the record referencing
`C4082455` is dropped (the resolver output equals the output on the
`C4082455`-free input). -/
theorem c6_unnamed_replacement_witness :
    map_retired_cuis [c6Rec]
        (add_cui_name_and_semtype_to_retirement_mapping c6RawMapping [] []) =
      map_retired_cuis
        ([c6Rec].filter (fun r => !(r.subjectCui == c4082455S || r.objectCui == c4082455S)))
        (add_cui_name_and_semtype_to_retirement_mapping c6RawMapping [] []) :=
  c6_unnamed_replacement_dropped c6RawMapping [] [] [c6Rec] c4082455S (by decide)
    (fun p hp hpR i hi => absurd hi (List.not_mem_nil i))

lemma resolveSubject_subject_source (M : List RetireRow) (r r2 : Predication)
    (h : r2 ∈ resolveSubject M r) :
    (∃ m ∈ M, r2.subjectCui = m.cui2) ∨
      (r2.subjectCui = r.subjectCui ∧ isSubjectRetired M r = false) := by
  unfold resolveSubject at h
  by_cases hret : isSubjectRetired M r = true
  · rw [if_pos hret] at h
    rcases List.mem_filterMap.1 h with ⟨m, hm, hf⟩
    rcases hinfo : m.info with _ | nv
    · simp only [hinfo] at hf
      exact absurd hf (by simp)
    · simp only [hinfo] at hf
      by_cases hcond : (m.cui1 == r.subjectCui && nv.2 == r.subjectSemtype) = true
      · rw [if_pos hcond] at hf
        have h2 := Option.some.inj hf
        exact Or.inl ⟨m, hm, by rw [← h2]⟩
      · rw [if_neg hcond] at hf
        exact absurd hf (by simp)
  · rw [if_neg hret] at h
    have he := List.mem_singleton.1 h
    refine Or.inr ⟨by rw [he], ?_⟩
    revert hret
    cases isSubjectRetired M r <;> simp

lemma resolveObject_object_source (M : List RetireRow) (r r2 : Predication)
    (h : r2 ∈ resolveObject M r) :
    (∃ m ∈ M, r2.objectCui = m.cui2) ∨
      (r2.objectCui = r.objectCui ∧ isObjectRetired M r = false) := by
  unfold resolveObject at h
  by_cases hret : isObjectRetired M r = true
  · rw [if_pos hret] at h
    rcases List.mem_filterMap.1 h with ⟨m, hm, hf⟩
    rcases hinfo : m.info with _ | nv
    · simp only [hinfo] at hf
      exact absurd hf (by simp)
    · simp only [hinfo] at hf
      by_cases hcond : (m.cui1 == r.objectCui && nv.2 == r.objectSemtype) = true
      · rw [if_pos hcond] at hf
        have h2 := Option.some.inj hf
        exact Or.inl ⟨m, hm, by rw [← h2]⟩
      · rw [if_neg hcond] at hf
        exact absurd hf (by simp)
  · rw [if_neg hret] at h
    have he := List.mem_singleton.1 h
    refine Or.inr ⟨by rw [he], ?_⟩
    revert hret
    cases isObjectRetired M r <;> simp

lemma resolveObject_subject_fields (M : List RetireRow) (r r2 : Predication)
    (h : r2 ∈ resolveObject M r) :
    r2.subjectCui = r.subjectCui ∧ r2.subjectSemtype = r.subjectSemtype := by
  unfold resolveObject at h
  by_cases hret : isObjectRetired M r = true
  · rw [if_pos hret] at h
    rcases List.mem_filterMap.1 h with ⟨m, _, hf⟩
    rcases hinfo : m.info with _ | nv
    · simp only [hinfo] at hf
      exact absurd hf (by simp)
    · simp only [hinfo] at hf
      by_cases hcond : (m.cui1 == r.objectCui && nv.2 == r.objectSemtype) = true
      · rw [if_pos hcond] at hf
        have h2 := Option.some.inj hf
        rw [← h2]
        exact ⟨rfl, rfl⟩
      · rw [if_neg hcond] at hf
        exact absurd hf (by simp)
  · rw [if_neg hret] at h
    rw [List.mem_singleton.1 h]
    exact ⟨rfl, rfl⟩

lemma map_retired_no_keys (df : List Predication) (M : List RetireRow)
    (hdisj : ∀ m ∈ M, ∀ m2 ∈ M, m.cui2 ≠ m2.cui1) :
    ∀ r ∈ map_retired_cuis df M,
      r.subjectCui ∉ retirementKeys M ∧ r.objectCui ∉ retirementKeys M := by
  intro r' hr'
  unfold map_retired_cuis at hr'
  dsimp only at hr'
  rcases List.mem_append.1 hr' with hk | hres
  · have h2 := (List.mem_filter.1 hk).2
    have hsub : isSubjectRetired M r' = false := by
      revert h2
      cases isSubjectRetired M r' <;> cases isObjectRetired M r' <;> simp
    have hobj : isObjectRetired M r' = false := by
      revert h2
      cases isSubjectRetired M r' <;> cases isObjectRetired M r' <;> simp
    constructor
    · intro hmem
      unfold isSubjectRetired at hsub
      have ht : (retirementKeys M).contains r'.subjectCui = true := List.elem_iff.2 hmem
      rw [hsub] at ht
      exact Bool.noConfusion ht
    · intro hmem
      unfold isObjectRetired at hobj
      have ht : (retirementKeys M).contains r'.objectCui = true := List.elem_iff.2 hmem
      rw [hobj] at ht
      exact Bool.noConfusion ht
  · rcases List.mem_flatMap.1 hres with ⟨r0, hr0, hstep⟩
    rcases List.mem_flatMap.1 hstep with ⟨r1, hr1, hr2⟩
    have hsubchar := resolveSubject_subject_source M r0 r1 hr1
    have hsubpres := (resolveObject_subject_fields M r1 r' hr2).1
    have hobjchar := resolveObject_object_source M r1 r' hr2
    constructor
    · rw [hsubpres]
      rcases hsubchar with ⟨m, hm, he⟩ | ⟨he, hflag⟩
      · rw [he]
        intro hmem
        rcases List.mem_map.1 hmem with ⟨m2, hm2, hm2e⟩
        exact hdisj m hm m2 hm2 hm2e.symm
      · rw [he]
        intro hmem
        unfold isSubjectRetired at hflag
        have ht : (retirementKeys M).contains r0.subjectCui = true := List.elem_iff.2 hmem
        rw [hflag] at ht
        exact Bool.noConfusion ht
    · rcases hobjchar with ⟨m, hm, he⟩ | ⟨he, hflag⟩
      · rw [he]
        intro hmem
        rcases List.mem_map.1 hmem with ⟨m2, hm2, hm2e⟩
        exact hdisj m hm m2 hm2 hm2e.symm
      · rw [he]
        intro hmem
        unfold isObjectRetired at hflag
        have ht : (retirementKeys M).contains r1.objectCui = true := List.elem_iff.2 hmem
        rw [hflag] at ht
        exact Bool.noConfusion ht

/-- C5 counterexample: with the chained mapping `C0000001 → C0000002 →
C0000003` — a mapping in which a replacement identifier is itself retired —
the Retirement Resolver is not idempotent: a second application replaces
`C0000002` again, so the claim fails as stated for arbitrary
RetirementMappings. -/
theorem c5_not_idempotent_on_chained_mapping :
    ¬(map_retired_cuis (map_retired_cuis [c5Rec] c5ChainMap) c5ChainMap =
        map_retired_cuis [c5Rec] c5ChainMap) := by
  decide

/-- C5 (amended): under the data invariant the source records for `MRCUI.RRF`
("CUI1 and CUI2 columns has no CUIs in common") — no replacement identifier
is itself a retired key — the resolver's output contains no retired subject
or object identifier, and applying the resolver a second time to its own
output changes nothing. -/
theorem c5_resolver_idempotent (df : List Predication) (M : List RetireRow)
    (hdisj : ∀ m ∈ M, ∀ m2 ∈ M, m.cui2 ≠ m2.cui1) :
    (∀ r ∈ map_retired_cuis df M,
      r.subjectCui ∉ retirementKeys M ∧ r.objectCui ∉ retirementKeys M) ∧
    map_retired_cuis (map_retired_cuis df M) M = map_retired_cuis df M := by
  have hnok := map_retired_no_keys df M hdisj
  refine ⟨hnok, ?_⟩
  have hflags : ∀ r ∈ map_retired_cuis df M,
      (isSubjectRetired M r || isObjectRetired M r) = false := by
    intro r hr
    obtain ⟨h1, h2⟩ := hnok r hr
    have e1 : isSubjectRetired M r = false := by
      unfold isSubjectRetired
      cases hc : (retirementKeys M).contains r.subjectCui
      · rfl
      · exact absurd (List.elem_iff.1 hc) h1
    have e2 : isObjectRetired M r = false := by
      unfold isObjectRetired
      cases hc : (retirementKeys M).contains r.objectCui
      · rfl
      · exact absurd (List.elem_iff.1 hc) h2
    rw [e1, e2]
    rfl
  conv_lhs => rw [map_retired_cuis]
  have hkeep : (map_retired_cuis df M).filter
      (fun r => !(isSubjectRetired M r || isObjectRetired M r)) = map_retired_cuis df M :=
    List.filter_eq_self.2 (fun r hr => by rw [hflags r hr]; rfl)
  have hdrop : (map_retired_cuis df M).filter
      (fun r => isSubjectRetired M r || isObjectRetired M r) = [] :=
    List.filter_eq_nil_iff.2 (fun r hr => by rw [hflags r hr]; exact Bool.false_ne_true)
  rw [hkeep, hdrop]
  simp

/-- C5 witness: the amended theorem at a concrete record and a mapping whose
replacement identifiers are not retired. -/
theorem c5_resolver_idempotent_witness :
    (∀ r ∈ map_retired_cuis [c5Rec] c5GoodMap,
      r.subjectCui ∉ retirementKeys c5GoodMap ∧
        r.objectCui ∉ retirementKeys c5GoodMap) ∧
    map_retired_cuis (map_retired_cuis [c5Rec] c5GoodMap) c5GoodMap =
      map_retired_cuis [c5Rec] c5GoodMap :=
  c5_resolver_idempotent [c5Rec] c5GoodMap (by decide)

lemma resolveSubject_preserves (M : List RetireRow) (r r2 : Predication)
    (h : r2 ∈ resolveSubject M r) :
    r2.predicationId = r.predicationId ∧ r2.subjectNovelty = r.subjectNovelty ∧
      r2.objectNovelty = r.objectNovelty := by
  unfold resolveSubject at h
  by_cases hret : isSubjectRetired M r = true
  · rw [if_pos hret] at h
    rcases List.mem_filterMap.1 h with ⟨m, _, hf⟩
    rcases hinfo : m.info with _ | nv
    · simp only [hinfo] at hf
      exact absurd hf (by simp)
    · simp only [hinfo] at hf
      by_cases hcond : (m.cui1 == r.subjectCui && nv.2 == r.subjectSemtype) = true
      · rw [if_pos hcond] at hf
        rw [← Option.some.inj hf]
        exact ⟨rfl, rfl, rfl⟩
      · rw [if_neg hcond] at hf
        exact absurd hf (by simp)
  · rw [if_neg hret] at h
    rw [List.mem_singleton.1 h]
    exact ⟨rfl, rfl, rfl⟩

lemma resolveObject_preserves (M : List RetireRow) (r r2 : Predication)
    (h : r2 ∈ resolveObject M r) :
    r2.predicationId = r.predicationId ∧ r2.subjectNovelty = r.subjectNovelty ∧
      r2.objectNovelty = r.objectNovelty := by
  unfold resolveObject at h
  by_cases hret : isObjectRetired M r = true
  · rw [if_pos hret] at h
    rcases List.mem_filterMap.1 h with ⟨m, _, hf⟩
    rcases hinfo : m.info with _ | nv
    · simp only [hinfo] at hf
      exact absurd hf (by simp)
    · simp only [hinfo] at hf
      by_cases hcond : (m.cui1 == r.objectCui && nv.2 == r.objectSemtype) = true
      · rw [if_pos hcond] at hf
        rw [← Option.some.inj hf]
        exact ⟨rfl, rfl, rfl⟩
      · rw [if_neg hcond] at hf
        exact absurd hf (by simp)
  · rw [if_neg hret] at h
    rw [List.mem_singleton.1 h]
    exact ⟨rfl, rfl, rfl⟩

lemma map_retired_cuis_mem (df : List Predication) (M : List RetireRow)
    (x : Predication) (hx : x ∈ map_retired_cuis df M) :
    ∃ y ∈ df, x.predicationId = y.predicationId ∧
      x.subjectNovelty = y.subjectNovelty ∧ x.objectNovelty = y.objectNovelty := by
  unfold map_retired_cuis at hx
  dsimp only at hx
  rcases List.mem_append.1 hx with hk | hres
  · exact ⟨x, (List.mem_filter.1 hk).1, rfl, rfl, rfl⟩
  · rcases List.mem_flatMap.1 hres with ⟨r0, hr0, hstep⟩
    rcases List.mem_flatMap.1 hstep with ⟨r1, hr1, hr2⟩
    obtain ⟨p1, s1, o1⟩ := resolveSubject_preserves M r0 r1 hr1
    obtain ⟨p2, s2, o2⟩ := resolveObject_preserves M r1 x hr2
    exact ⟨r0, (List.mem_filter.1 hr0).1,
      by rw [p2, p1], by rw [s2, s1], by rw [o2, o1]⟩

lemma explode_pipes_mem (df : List Predication) (x : Predication)
    (hx : x ∈ explode_pipes df) :
    ∃ y ∈ df, x.predicationId = y.predicationId ∧
      x.subjectNovelty = y.subjectNovelty ∧ x.objectNovelty = y.objectNovelty := by
  unfold explode_pipes at hx
  dsimp only at hx
  rcases List.mem_append.1 hx with h | h
  · have hx2 := (List.mem_filter.1 h).1
    rcases List.mem_map.1 hx2 with ⟨y, hy, he⟩
    refine ⟨y, hy, ?_⟩
    rw [← he]
    exact ⟨rfl, rfl, rfl⟩
  · have hx2 := (List.mem_filter.1 h).1
    rcases List.mem_flatMap.1 hx2 with ⟨t, ht, hxr⟩
    have ht2 := (List.mem_filter.1 ht).1
    rcases List.mem_map.1 ht2 with ⟨y, hy, he⟩
    unfold explodeRow at hxr
    rcases List.mem_flatMap.1 hxr with ⟨ocp, _, hmap⟩
    rcases List.mem_map.1 hmap with ⟨scp, _, hxe⟩
    refine ⟨y, hy, ?_⟩
    rw [← hxe, ← he]
    exact ⟨rfl, rfl, rfl⟩

lemma assignDocIdsAux_mem (full : List Predication) :
    ∀ (seen l : List Predication), ∀ x ∈ assignDocIdsAux full seen l,
      ∃ y ∈ l, ∃ s : String, x = { y with docId := s } := by
  intro seen l
  induction l generalizing seen with
  | nil => intro x hx; exact absurd hx (List.not_mem_nil x)
  | cons a t ih =>
    intro x hx
    unfold assignDocIdsAux at hx
    rcases List.mem_cons.1 hx with h | h
    · exact ⟨a, List.mem_cons_self a t, _, h⟩
    · obtain ⟨y, hy, s, he⟩ := ih (seen ++ [a]) x h
      exact ⟨y, List.mem_cons_of_mem a hy, s, he⟩

lemma add_document_id_column_mem (df : List Predication) (x : Predication)
    (hx : x ∈ add_document_id_column df) :
    ∃ y ∈ df, x.predicationId = y.predicationId ∧
      x.subjectNovelty = y.subjectNovelty ∧ x.objectNovelty = y.objectNovelty := by
  unfold add_document_id_column at hx
  dsimp only at hx
  obtain ⟨y, hy, s, he⟩ := assignDocIdsAux_mem _ _ _ x hx
  have hy2 : y ∈ df := (List.perm_insertionSort docOrder df).mem_iff.1 hy
  refine ⟨y, hy2, ?_⟩
  rw [he]
  exact ⟨rfl, rfl, rfl⟩

/-- C9: zero-novelty exclusion.  Every record the cleaning pipeline produces
has nonzero subject and object novelty scores, and its novelty values are
those of an input row with the same predication id that itself passed the
zero-novelty filter — so no atomic record (and hence no emitted document) is
ever produced from a row with either novelty score equal to 0, whose fate is
decided by `delete_zero_novelty_scores` before any expansion. -/
theorem c9_zero_novelty_rows_produce_nothing (rows : List Predication)
    (mrcui : List MrcuiRow) (umlsTbl : List CuiInfo)
    (oracle : String → Option String) :
    ∀ r ∈ construct_semmed_predication_data_frame rows mrcui umlsTbl oracle,
      r.subjectNovelty ≠ 0 ∧ r.objectNovelty ≠ 0 ∧
      ∃ row ∈ rows, r.predicationId = row.predicationId ∧
        r.subjectNovelty = row.subjectNovelty ∧
        r.objectNovelty = row.objectNovelty := by
  intro r hr
  unfold construct_semmed_predication_data_frame at hr
  dsimp only at hr
  obtain ⟨r7, hr7, he7⟩ := add_document_id_column_mem _ r hr
  unfold delete_equivalent_ncbigene_ids at hr7
  have hr6 := (List.mem_filter.1 hr7).1
  obtain ⟨r5, hr5, he5⟩ := map_retired_cuis_mem _ _ r7 hr6
  unfold add_prefix_columns at hr5
  rcases List.mem_map.1 hr5 with ⟨r4, hr4, he4⟩
  have he4b : r5.predicationId = r4.predicationId ∧
      r5.subjectNovelty = r4.subjectNovelty ∧
      r5.objectNovelty = r4.objectNovelty := by
    rw [← he4]
    exact ⟨rfl, rfl, rfl⟩
  unfold delete_retired_cuis at hr4
  have hr3 := (List.mem_filter.1 hr4).1
  obtain ⟨r2, hr2, he2⟩ := explode_pipes_mem _ r4 hr3
  unfold delete_invalid_object_cuis at hr2
  have hr1 := (List.mem_filter.1 hr2).1
  unfold delete_zero_novelty_scores at hr1
  obtain ⟨hrow, hcond⟩ := List.mem_filter.1 hr1
  have hnz : r2.subjectNovelty ≠ 0 ∧ r2.objectNovelty ≠ 0 := by
    simp only [Bool.not_eq_true', Bool.or_eq_false_iff, beq_eq_false_iff_ne] at hcond
    exact hcond
  have hpid : r.predicationId = r2.predicationId := by
    rw [he7.1, he5.1, he4b.1, he2.1]
  have hsn : r.subjectNovelty = r2.subjectNovelty := by
    rw [he7.2.1, he5.2.1, he4b.2.1, he2.2.1]
  have hon : r.objectNovelty = r2.objectNovelty := by
    rw [he7.2.2, he5.2.2, he4b.2.2, he2.2.2]
  exact ⟨by rw [hsn]; exact hnz.1, by rw [hon]; exact hnz.2,
    r2, hrow, hpid, hsn, hon⟩

/-- C9 witness: the theorem applied to the first record the pipeline emits
for the §8 row. -/
theorem c9_zero_novelty_witness :
    c9Rec.subjectNovelty ≠ 0 ∧ c9Rec.objectNovelty ≠ 0 ∧
      ∃ row ∈ [scenarioRaw8], c9Rec.predicationId = row.predicationId ∧
        c9Rec.subjectNovelty = row.subjectNovelty ∧
        c9Rec.objectNovelty = row.objectNovelty :=
  c9_zero_novelty_rows_produce_nothing [scenarioRaw8] [] [] scenarioOracle c9Rec
    (by decide)

lemma charListLt_trans : ∀ {a b c : List Char},
    charListLt a b = true → charListLt b c = true → charListLt a c = true := by
  intro a
  induction a with
  | nil =>
    intro b c hab hbc
    cases b with
    | nil => exact absurd hab (by simp [charListLt])
    | cons y ys =>
      cases c with
      | nil => exact absurd hbc (by simp [charListLt])
      | cons z zs => simp [charListLt]
  | cons x xs ih =>
    intro b c hab hbc
    cases b with
    | nil => exact absurd hab (by simp [charListLt])
    | cons y ys =>
      cases c with
      | nil => exact absurd hbc (by simp [charListLt])
      | cons z zs =>
        simp only [charListLt] at hab hbc ⊢
        by_cases h1 : x.toNat < y.toNat
        · by_cases h2 : y.toNat < z.toNat
          · rw [if_pos (show x.toNat < z.toNat by omega)]
          · rw [if_neg h2] at hbc
            by_cases h3 : z.toNat < y.toNat
            · rw [if_pos h3] at hbc
              exact absurd hbc (by simp)
            · rw [if_pos (show x.toNat < z.toNat by omega)]
        · rw [if_neg h1] at hab
          by_cases h1b : y.toNat < x.toNat
          · rw [if_pos h1b] at hab
            exact absurd hab (by simp)
          · rw [if_neg h1b] at hab
            by_cases h2 : y.toNat < z.toNat
            · rw [if_pos (show x.toNat < z.toNat by omega)]
            · rw [if_neg h2] at hbc
              by_cases h3 : z.toNat < y.toNat
              · rw [if_pos h3] at hbc
                exact absurd hbc (by simp)
              · rw [if_neg h3] at hbc
                rw [if_neg (show ¬(x.toNat < z.toNat) by omega),
                  if_neg (show ¬(z.toNat < x.toNat) by omega)]
                exact ih hab hbc

lemma charListLt_eq_of_not : ∀ {a b : List Char},
    charListLt a b = false → charListLt b a = false → a = b := by
  intro a
  induction a with
  | nil =>
    intro b h1 _
    cases b with
    | nil => rfl
    | cons y ys => exact absurd h1 (by simp [charListLt])
  | cons x xs ih =>
    intro b h1 h2
    cases b with
    | nil => exact absurd h2 (by simp [charListLt])
    | cons y ys =>
      simp only [charListLt] at h1 h2
      by_cases hxy : x.toNat < y.toNat
      · rw [if_pos hxy] at h1
        exact absurd h1 (by simp)
      · by_cases hyx : y.toNat < x.toNat
        · rw [if_pos hyx] at h2
          exact absurd h2 (by simp)
        · rw [if_neg hxy, if_neg hyx] at h1
          rw [if_neg hyx, if_neg hxy] at h2
          have hchar : x = y := Char.ext (UInt32.ext (show x.toNat = y.toNat by omega))
          rw [hchar, ih h1 h2]

lemma charListLt_irrefl : ∀ l : List Char, charListLt l l = false := by
  intro l
  induction l with
  | nil => rfl
  | cons x xs ih =>
    simp only [charListLt]
    rw [if_neg (lt_irrefl x.toNat), if_neg (lt_irrefl x.toNat)]
    exact ih

lemma strLt_trans {a b c : String} (h1 : strLt a b = true) (h2 : strLt b c = true) :
    strLt a c = true :=
  charListLt_trans h1 h2

lemma strLt_eq_of_not {a b : String} (h1 : strLt a b = false) (h2 : strLt b a = false) :
    a = b :=
  String.ext (charListLt_eq_of_not h1 h2)

lemma strLt_irrefl (s : String) : strLt s s = false :=
  charListLt_irrefl s.data

/-- The sort key of `add_document_id_column` as a disjunction: ascending on
predication id, then descending on subject and object identifiers. -/
lemma docLeB_iff (a b : Predication) : docLeB a b = true ↔
    a.predicationId < b.predicationId ∨
    (a.predicationId = b.predicationId ∧
      (strLt b.subjectCui a.subjectCui = true ∨
        (a.subjectCui = b.subjectCui ∧
          (strLt b.objectCui a.objectCui = true ∨
            a.objectCui = b.objectCui)))) := by
  unfold docLeB
  by_cases n1 : a.predicationId < b.predicationId
  · simp [n1]
  · by_cases n2 : b.predicationId < a.predicationId
    · rw [if_neg n1, if_pos n2]
      constructor
      · intro h
        exact absurd h (by simp)
      · rintro (h | ⟨h, _⟩)
        · omega
        · omega
    · have hpe : a.predicationId = b.predicationId := by omega
      rw [if_neg n1, if_neg n2]
      by_cases s1 : strLt b.subjectCui a.subjectCui = true
      · rw [if_pos s1]
        simp [hpe, s1]
      · by_cases s2 : strLt a.subjectCui b.subjectCui = true
        · rw [if_neg s1, if_pos s2]
          constructor
          · intro h
            exact absurd h (by simp)
          · rintro (h | ⟨_, h | ⟨hse, _⟩⟩)
            · omega
            · exact absurd h s1
            · rw [hse, strLt_irrefl] at s2
              exact Bool.noConfusion s2
        · have hse : a.subjectCui = b.subjectCui := by
            refine strLt_eq_of_not ?_ ?_
            · revert s2; cases strLt a.subjectCui b.subjectCui <;> simp
            · revert s1; cases strLt b.subjectCui a.subjectCui <;> simp
          rw [if_neg s1, if_neg s2]
          by_cases o1 : strLt b.objectCui a.objectCui = true
          · rw [if_pos o1]
            simp [hpe, hse, o1]
          · by_cases o2 : strLt a.objectCui b.objectCui = true
            · rw [if_neg o1, if_pos o2]
              constructor
              · intro h
                exact absurd h (by simp)
              · rintro (h | ⟨_, h | ⟨_, h | hoe⟩⟩)
                · omega
                · exact absurd h s1
                · exact absurd h o1
                · rw [hoe, strLt_irrefl] at o2
                  exact Bool.noConfusion o2
            · have hoe : a.objectCui = b.objectCui := by
                refine strLt_eq_of_not ?_ ?_
                · revert o2; cases strLt a.objectCui b.objectCui <;> simp
                · revert o1; cases strLt b.objectCui a.objectCui <;> simp
              rw [if_neg o1, if_neg o2]
              simp [hpe, hse, hoe]

instance : IsTotal Predication docOrder := ⟨by
  intro a b
  unfold docOrder
  rw [docLeB_iff, docLeB_iff]
  rcases Nat.lt_trichotomy a.predicationId b.predicationId with h | h | h
  · exact Or.inl (Or.inl h)
  · by_cases s1 : strLt b.subjectCui a.subjectCui = true
    · exact Or.inl (Or.inr ⟨h, Or.inl s1⟩)
    · by_cases s2 : strLt a.subjectCui b.subjectCui = true
      · exact Or.inr (Or.inr ⟨h.symm, Or.inl s2⟩)
      · have hse : a.subjectCui = b.subjectCui := by
          refine strLt_eq_of_not ?_ ?_
          · revert s2; cases strLt a.subjectCui b.subjectCui <;> simp
          · revert s1; cases strLt b.subjectCui a.subjectCui <;> simp
        by_cases o1 : strLt b.objectCui a.objectCui = true
        · exact Or.inl (Or.inr ⟨h, Or.inr ⟨hse, Or.inl o1⟩⟩)
        · by_cases o2 : strLt a.objectCui b.objectCui = true
          · exact Or.inr (Or.inr ⟨h.symm, Or.inr ⟨hse.symm, Or.inl o2⟩⟩)
          · have hoe : a.objectCui = b.objectCui := by
              refine strLt_eq_of_not ?_ ?_
              · revert o2; cases strLt a.objectCui b.objectCui <;> simp
              · revert o1; cases strLt b.objectCui a.objectCui <;> simp
            exact Or.inl (Or.inr ⟨h, Or.inr ⟨hse, Or.inr hoe⟩⟩)
  · exact Or.inr (Or.inl h)⟩

instance : IsTrans Predication docOrder := ⟨by
  intro a b c hab hbc
  unfold docOrder at hab hbc ⊢
  rw [docLeB_iff] at hab hbc ⊢
  rcases hab with h1 | ⟨hp1, hs1⟩
  · rcases hbc with h2 | ⟨hp2, _⟩
    · exact Or.inl (by omega)
    · exact Or.inl (by omega)
  · rcases hbc with h2 | ⟨hp2, hs2⟩
    · exact Or.inl (by omega)
    · refine Or.inr ⟨by omega, ?_⟩
      rcases hs1 with hlt1 | ⟨hqe1, ho1⟩
      · rcases hs2 with hlt2 | ⟨hqe2, _⟩
        · exact Or.inl (strLt_trans hlt2 hlt1)
        · exact Or.inl (by rw [← hqe2]; exact hlt1)
      · rcases hs2 with hlt2 | ⟨hqe2, ho2⟩
        · exact Or.inl (by rw [hqe1]; exact hlt2)
        · refine Or.inr ⟨by rw [hqe1, hqe2], ?_⟩
          rcases ho1 with holt1 | hoe1
          · rcases ho2 with holt2 | hoe2
            · exact Or.inl (strLt_trans holt2 holt1)
            · exact Or.inl (by rw [← hoe2]; exact holt1)
          · rcases ho2 with holt2 | hoe2
            · exact Or.inl (by rw [hoe1]; exact holt2)
            · exact Or.inr (by rw [hoe1, hoe2])⟩

lemma assignDocIdsAux_pairwise (full : List Predication) :
    ∀ (seen l : List Predication), List.Pairwise docOrder l →
      List.Pairwise docOrder (assignDocIdsAux full seen l) := by
  intro seen l
  induction l generalizing seen with
  | nil => intro _; exact List.Pairwise.nil
  | cons a t ih =>
    intro h
    obtain ⟨hhead, htail⟩ := List.pairwise_cons.1 h
    unfold assignDocIdsAux
    refine List.pairwise_cons.2 ⟨?_, ih (seen ++ [a]) htail⟩
    intro y hy
    obtain ⟨x, hx, s, he⟩ := assignDocIdsAux_mem full (seen ++ [a]) t y hy
    have hax := hhead x hx
    rw [he]
    exact hax

lemma assignDocIdsAux_docIds (p N : Nat) (full : List Predication)
    (hfull : (full.filter (fun x => x.predicationId == p)).length = N)
    (hN : (N == 1) = false) :
    ∀ (seen l : List Predication), (∀ x ∈ l, x.predicationId = p) →
      (assignDocIdsAux full seen l).map (fun x => x.docId) =
        (List.range l.length).map (fun i =>
          toString p ++ dashLit ++
            toString ((seen.filter (fun x => x.predicationId == p)).length + i + 1)) := by
  intro seen l
  induction l generalizing seen with
  | nil => intro _; rfl
  | cons a t ih =>
    intro h
    have hap : a.predicationId = p := h a (List.mem_cons_self a t)
    unfold assignDocIdsAux
    dsimp only
    simp only [List.map_cons, List.length_cons, List.range_succ_eq_map, List.map_map]
    congr 1
    · rw [hap, hfull, hN]
      rw [if_neg (by simp)]
    · rw [ih (seen ++ [a]) (fun x hx => h x (List.mem_cons_of_mem a hx))]
      refine List.map_congr_left (fun i _ => ?_)
      have hlen : ((seen ++ [a]).filter (fun x => x.predicationId == p)).length =
          (seen.filter (fun x => x.predicationId == p)).length + 1 := by
        rw [List.filter_append]
        simp [hap]
      rw [hlen]
      simp only [Function.comp]
      congr 1
      congr 1
      omega

lemma explode_pipes_single_len (r : Predication) (ss sns os ons : List String)
    (m n : Nat)
    (hss : splitPipes r.subjectCui = ss) (hsn : splitPipes r.subjectName = sns)
    (hos : splitPipes r.objectCui = os) (hon : splitPipes r.objectName = ons)
    (hm : ss.length = m) (hm2 : sns.length = m)
    (hn : os.length = n) (hn2 : ons.length = n)
    (hvs : ∀ t ∈ ss, (t == emptyLit) = false)
    (hvn : ∀ t ∈ sns, (t == noneLit) = false)
    (hvo : ∀ t ∈ os, (t == emptyLit) = false)
    (hvo2 : ∀ t ∈ ons, (t == noneLit) = false)
    (hpiped : (containsPipe r.subjectCui || containsPipe r.objectCui) = true) :
    (explode_pipes [r]).length = m * n := by
  unfold explode_pipes
  dsimp only
  simp only [List.map_cons, List.map_nil, List.filter_cons, List.filter_nil]
  split
  · next hcond =>
    have h2 : (containsPipe r.subjectCui || containsPipe r.objectCui) = false := by
      rw [← Bool.not_eq_true']
      exact hcond
    rw [h2] at hpiped
    exact Bool.noConfusion hpiped
  · rw [List.flatMap_cons, List.flatMap_nil, List.append_nil, List.nil_append]
    have hkeep : ∀ x ∈ explodeRow ({ r with
        isSubjectPiped := containsPipe r.subjectCui,
        isObjectPiped := containsPipe r.objectCui } : Predication),
        (!(x.subjectCui == emptyLit || x.subjectName == noneLit ||
          x.objectCui == emptyLit || x.objectName == noneLit)) = true := by
      intro x hx
      unfold explodeRow at hx
      rcases List.mem_flatMap.1 hx with ⟨ocp, hocp, hmap⟩
      rcases List.mem_map.1 hmap with ⟨scp, hscp, hxe⟩
      rw [← hxe]
      have hoc := List.of_mem_zip (by rw [hos, hon] at hocp; exact hocp)
      have hsc := List.of_mem_zip (by rw [hss, hsn] at hscp; exact hscp)
      have e1 := hvs scp.1 hsc.1
      have e2 := hvn scp.2 hsc.2
      have e3 := hvo ocp.1 hoc.1
      have e4 := hvo2 ocp.2 hoc.2
      simp [e1, e2, e3, e4]
    rw [List.filter_eq_self.2 hkeep]
    unfold explodeRow
    rw [List.length_flatMap]
    have hinner : List.map (List.length ∘ fun oc =>
        ((splitPipes r.subjectCui).zip (splitPipes r.subjectName)).map (fun sc =>
          ({ r with
            isSubjectPiped := containsPipe r.subjectCui,
            isObjectPiped := containsPipe r.objectCui,
            subjectCui := sc.1, subjectName := sc.2,
            objectCui := oc.1, objectName := oc.2 } : Predication)))
        (((splitPipes r.objectCui).zip (splitPipes r.objectName))) =
        List.map (fun _ => m) (((splitPipes r.objectCui).zip (splitPipes r.objectName))) := by
      refine List.map_congr_left (fun oc _ => ?_)
      simp only [Function.comp, List.length_map, List.length_zip]
      rw [hss, hsn, hm, hm2]
      exact Nat.min_self m
    rw [hinner, List.map_const', List.sum_replicate, smul_eq_mul]
    rw [List.length_zip, hos, hon, hn, hn2, Nat.min_self]
    exact Nat.mul_comm n m

/-- C4 counterexample: on the §8 row the claim's (subject-outer,
object-inner) combination order would give the record `(2212, C1332714)` —
the first combination — the suffix `1`, but the code assigns suffixes after
sorting by (predication id asc, subject id desc, object id desc) and that
record receives `11021926-3`. -/
theorem c4_suffix_not_combination_order :
    ((add_document_id_column (explode_pipes [scenarioRaw8])).filter
      (fun x => x.subjectCui == str2212 && x.objectCui == strC1332714)).map
        (fun x => x.docId) = [c4Id3] ∧ ¬(c4Id3 = c4Id1) := by
  decide

/-- C4 (amended): a valid raw row with `m` subject tokens and `n` object
tokens (all identifier tokens non-empty, all name tokens distinct from the
`"None"` placeholder, cardinalities matching) expands to exactly `m × n`
atomic records, and `add_document_id_column` assigns the 1-based suffixes
`1..m×n` positionally along its output, which is ordered by (predication id
ascending, subject identifier descending, object identifier descending) —
not in input combination order. -/
theorem c4_expansion_count_and_suffixes (r : Predication)
    (ss sns os ons : List String) (m n : Nat)
    (hss : splitPipes r.subjectCui = ss) (hsn : splitPipes r.subjectName = sns)
    (hos : splitPipes r.objectCui = os) (hon : splitPipes r.objectName = ons)
    (hm : ss.length = m) (hm2 : sns.length = m)
    (hn : os.length = n) (hn2 : ons.length = n)
    (hvs : ∀ t ∈ ss, (t == emptyLit) = false)
    (hvn : ∀ t ∈ sns, (t == noneLit) = false)
    (hvo : ∀ t ∈ os, (t == emptyLit) = false)
    (hvo2 : ∀ t ∈ ons, (t == noneLit) = false)
    (hpiped : (containsPipe r.subjectCui || containsPipe r.objectCui) = true)
    (hN : 2 ≤ m * n) :
    (explode_pipes [r]).length = m * n ∧
    (add_document_id_column (explode_pipes [r])).map (fun x => x.docId) =
      (List.range (m * n)).map (fun i =>
        toString r.predicationId ++ dashLit ++ toString (i + 1)) ∧
    List.Pairwise docOrder (add_document_id_column (explode_pipes [r])) := by
  have hlen : (explode_pipes [r]).length = m * n :=
    explode_pipes_single_len r ss sns os ons m n hss hsn hos hon hm hm2 hn hn2
      hvs hvn hvo hvo2 hpiped
  have hallp : ∀ x ∈ List.insertionSort docOrder (explode_pipes [r]),
      x.predicationId = r.predicationId := by
    intro x hx
    have hx2 := (List.perm_insertionSort docOrder _).mem_iff.1 hx
    obtain ⟨y, hy, he⟩ := explode_pipes_mem [r] x hx2
    rw [List.mem_singleton.1 hy] at he
    exact he.1
  have hsortlen : (List.insertionSort docOrder (explode_pipes [r])).length = m * n := by
    rw [List.length_insertionSort]
    exact hlen
  refine ⟨hlen, ?_, ?_⟩
  · unfold add_document_id_column
    dsimp only
    have hfilterfull : ((List.insertionSort docOrder (explode_pipes [r])).filter
        (fun x => x.predicationId == r.predicationId)).length = m * n := by
      rw [List.filter_eq_self.2 (fun x hx => by rw [hallp x hx]; exact beq_self_eq_true _)]
      exact hsortlen
    have hN1 : ((m * n : Nat) == 1) = false := beq_eq_false_iff_ne.2 (by omega)
    rw [assignDocIdsAux_docIds r.predicationId (m * n) _ hfilterfull hN1 [] _ hallp]
    rw [hsortlen]
    simp only [List.filter_nil, List.length_nil, Nat.zero_add]
  · unfold add_document_id_column
    dsimp only
    exact assignDocIdsAux_pairwise _ [] _ (List.sorted_insertionSort docOrder _)

/-- C4 witness: the amended theorem at the §8 row, `m = n = 2`. -/
theorem c4_expansion_count_witness :
    (explode_pipes [scenarioRaw8]).length = 2 * 2 ∧
    (add_document_id_column (explode_pipes [scenarioRaw8])).map (fun x => x.docId) =
      (List.range (2 * 2)).map (fun i =>
        toString scenarioRaw8.predicationId ++ dashLit ++ toString (i + 1)) ∧
    List.Pairwise docOrder (add_document_id_column (explode_pipes [scenarioRaw8])) :=
  c4_expansion_count_and_suffixes scenarioRaw8 c4SubTokens c4SubNames c4ObjTokens
    c4ObjNames 2 2 (by decide) (by decide) (by decide) (by decide) (by decide)
    (by decide) (by decide) (by decide) (by decide) (by decide) (by decide)
    (by decide) (by decide) (by decide)

end Semmed
